import Mathlib

/-!
Verification of the HEIC composite-stream assembly pipeline
(`HeicCompositeStream.cpp`), as a shallow embedding in Lean 4.

Conventions of the embedding:
* machine integers become `Nat`/`Int`; byte buffers become `List Nat`
  (each element a byte value);
* raw pointers that are only compared against `nullptr` become `Bool`
  or `Option` fields;
* `status_t` return codes become the `Status` inductive below;
* calls into external collaborators (codec, muxer, output surface)
  are modelled by an explicit environment of call outcomes, and the
  externally visible calls (sample writes, buffer releases, error
  notifications, sink deliveries) are recorded in explicit logs.
-/

set_option maxHeartbeats 1000000

namespace HeicStream

/-- `status_t` values that appear in the translated functions. -/
inductive Status where
  | ok
  | noInit
  | badValue
  | noMemory
  | unknownError
  deriving Repr, DecidableEq

/-- Byte access with the convention that a byte read is `getD i 0`.
All call sites in the translated code stay within the buffer for the
inputs considered (the C++ reads raw memory). -/
def getByte (buf : List Nat) (i : Nat) : Nat := buf.getD i 0

/-- Big-endian 16-bit read, as in
`(static_cast<uint16_t>(buf[i]) << 8) + buf[i+1]`. -/
def be16 (buf : List Nat) (i : Nat) : Nat :=
  getByte buf i * 256 + getByte buf (i + 1)

/-- Little-endian 32-bit read (layout of the `CameraBlob` trailer fields
on the little-endian target). -/
def le32 (buf : List Nat) (i : Nat) : Nat :=
  getByte buf i + 256 * (getByte buf (i + 1) +
    256 * (getByte buf (i + 2) + 256 * getByte buf (i + 3)))

/-- `CameraBlobId::JPEG_APP_SEGMENTS` = 0x100. -/
def jpegAppSegmentsBlobId : Nat := 256

/-- `sizeof(CameraBlob)`: two packed 32-bit fields. -/
def sizeofCameraBlob : Nat := 8

/-- The `while (totalSize < expectedSize)` loop of `findAppSegmentsSize`:
checks an APPn marker (0xFF, then a byte in (0xE1, 0xEF]) and adds the
marker plus its big-endian payload length.  `none` models the C++
`return 0` on an invalid marker.  The `fuel` argument only bounds the
iteration count so the recursion is structural; since every iteration
advances `totalSize` by at least 2, `fuel = expectedSize` iterations
always suffice (theorem `parseAppnLoop_fuel_enough` below), so the
fuel-exhaustion branch is unreachable from `findAppSegmentsSize`. -/
def parseAppnLoop (buf : List Nat) (expectedSize : Nat) :
    Nat → Nat → Option Nat
  | 0, totalSize => if totalSize < expectedSize then none else some totalSize
  | fuel + 1, totalSize =>
      if totalSize < expectedSize then
        if getByte buf totalSize ≠ 0xFF ∨
            getByte buf (totalSize + 1) ≤ 0xE1 ∨
            getByte buf (totalSize + 1) > 0xEF then
          none
        else
          parseAppnLoop buf expectedSize fuel
            (totalSize + 2 + be16 buf (totalSize + 2))
      else
        some totalSize

/-- `HeicCompositeStream::findAppSegmentsSize`.  Returns
`some (appSegmentsSize, app1SegmentSize)` on success; `none` models the
C++ `return 0` (failure).  `maxSize` is `width * height` of the blob
buffer. -/
def findAppSegmentsSize (buf : List Nat) (maxSize : Nat) :
    Option (Nat × Nat) :=
  let blobId := le32 buf (maxSize - sizeofCameraBlob)
  let blobSizeBytes := le32 buf (maxSize - 4)
  if blobId ≠ jpegAppSegmentsBlobId then none
  else
    let expectedSize := blobSizeBytes
    if expectedSize = 0 ∨ expectedSize > maxSize - sizeofCameraBlob then
      none
    else if getByte buf 0 ≠ 0xFF ∨ getByte buf 1 ≠ 0xE1 then none
    else
      let app1Size := be16 buf 2
      match parseAppnLoop buf expectedSize expectedSize (2 + app1Size) with
      | none => none
      | some totalSize =>
          if totalSize ≠ expectedSize then none
          else some (expectedSize, app1Size + 2)

/-- `HeicEncoderInfoManager::kGridWidth`. -/
def kGridWidth : Nat := 512
/-- `HeicEncoderInfoManager::kGridHeight`. -/
def kGridHeight : Nat := 512
/-- `kMaxOutputSurfaceProducerCount`. -/
def kMaxOutputSurfaceProducerCount : Int := 1
/-- `kDefaultJpegQuality`. -/
def kDefaultJpegQuality : Int := 99
/-- `MediaCodec::BUFFER_FLAG_CODECCONFIG`. -/
def bufferFlagCodecConfig : Nat := 2

/-- Grid configuration computed by `initializeCodec`. -/
structure GridConfig where
  gridWidth : Nat
  gridHeight : Nat
  gridRows : Nat
  gridCols : Nat
  deriving Repr, DecidableEq

/-- The grid computation of `initializeCodec` (lines 1976-1995): with
tiling, a fixed 512x512 tile and `(dim + tile - 1) / tile` rows/cols;
otherwise a single full-size tile. -/
def initializeCodecGrid (width height : Nat) (useGrid useHeic : Bool) :
    GridConfig :=
  if useGrid || useHeic then
    { gridWidth := kGridWidth
      gridHeight := kGridHeight
      gridRows := (height + kGridHeight - 1) / kGridHeight
      gridCols := (width + kGridWidth - 1) / kGridWidth }
  else
    { gridWidth := width, gridHeight := height, gridRows := 1, gridCols := 1 }

/-- The per-tile rectangle computed by `processCodecInputFrame`
(lines 1462-1470): `(top, left, width, height)` for a given
`tileIndex`, with the last column/row clipped to the image bounds. -/
def tileRect (cfg : GridConfig) (outputWidth outputHeight : Nat)
    (tileIndex : Nat) : Nat × Nat × Nat × Nat :=
  let tileX := tileIndex % cfg.gridCols
  let tileY := tileIndex / cfg.gridCols
  let top := cfg.gridHeight * tileY
  let left := cfg.gridWidth * tileX
  let w := if tileX = cfg.gridCols - 1 then
      outputWidth - tileX * cfg.gridWidth else cfg.gridWidth
  let h := if tileY = cfg.gridRows - 1 then
      outputHeight - tileY * cfg.gridHeight else cfg.gridHeight
  (top, left, w, h)

/-- `ALIGN(x, mask)` for a power-of-two `mask`, as used for the output
buffer budget: `((x + mask - 1) & ~(mask - 1))`. -/
def alignTo (x mask : Nat) : Nat := (x + mask - 1) / mask * mask

/-- The output-capacity budget set by `initializeCodec` (lines 2021-2024):
tile-aligned dimensions times 3/2 bytes per pixel plus the app-segment
allowance.  (`initializeGainmapCodec` later adds the gainmap term; the
budget argument is kept abstract in the theorems.) -/
def maxHeicBufferSizeOf (outputWidth outputHeight appSegmentMaxSize : Nat) :
    Nat :=
  alignTo outputWidth kGridWidth * alignTo outputHeight kGridHeight * 3 / 2 +
    appSegmentMaxSize

/-- `CodecOutputBufferInfo`. -/
structure CodecOutputBufferInfo where
  index : Int
  offset : Int
  size : Nat
  timeUs : Int
  flags : Nat
  deriving Repr, DecidableEq

/-- `CodecInputBufferInfo`. -/
structure CodecInputBufferInfo where
  index : Int
  timeUs : Int
  tileIndex : Nat
  deriving Repr, DecidableEq

/-- `MediaCodec::BUFFER_FLAG_MUXER_DATA`, the flag used for metadata
samples. -/
def bufferFlagMuxerData : Nat := 16

/-- One `MediaMuxer::writeSampleData` call recorded against a frame's
muxer. -/
structure MuxerSample where
  trackIndex : Int
  bytes : List Nat
  timestamp : Int
  flags : Nat
  deriving Repr, DecidableEq

/-- `CpuConsumer::LockedBuffer`, reduced to the fields the pipeline
inspects: `data` (`none` models a null pointer), the byte contents for
app-segment buffers, the blob dimensions and the buffer timestamp. -/
structure LockedBuffer where
  data : Option (List Nat) := none
  width : Nat := 0
  height : Nat := 0
  timestamp : Int := 0
  deriving Repr, DecidableEq

instance : Inhabited LockedBuffer := ⟨{}⟩

/-- `InputFrame` (HeicCompositeStream.h lines 170-220), with pointers
that are only null-tested modelled as `Bool`/`Option`.  Field defaults
are the constructor's initializers. -/
structure InputFrame where
  orientation : Int := 0
  quality : Int := kDefaultJpegQuality
  appSegmentBuffer : LockedBuffer := {}
  codecOutputBuffers : List CodecOutputBufferInfo := []
  gainmapCodecOutputBuffers : List CodecOutputBufferInfo := []
  result : Bool := false
  yuvBuffer : LockedBuffer := {}
  codecInputBuffers : List CodecInputBufferInfo := []
  gainmapCodecInputBuffers : List CodecInputBufferInfo := []
  error : Bool := false
  exifError : Bool := false
  timestamp : Int := -1
  requestId : Int := -1
  format : Bool := false
  gainmapFormat : Bool := false
  muxer : Bool := false
  fenceFd : Int := -1
  fileFd : Int := -1
  trackIndex : Int := -1
  gainmapTrackIndex : Int := -1
  anb : Bool := false
  appSegmentWritten : Bool := false
  pendingOutputTiles : Nat := 0
  gainmapPendingOutputTiles : Nat := 0
  codecInputCounter : Nat := 0
  gainmapCodecInputCounter : Nat := 0
  baseBuffer : Bool := false
  baseImage : Bool := false
  gainmapImage : Bool := false
  isoGainmapMetadata : List Nat := []
  muxerSamples : List MuxerSample := []
  deriving Repr, DecidableEq

instance : Inhabited InputFrame := ⟨{}⟩

/-- `HeicSettings`. -/
structure HeicSettings where
  orientation : Int := 0
  quality : Int := 95
  timestamp : Int := 0
  requestId : Int := -1
  shutterNotified : Bool := false
  deriving Repr, DecidableEq

instance : Inhabited HeicSettings := ⟨{}⟩

/-! ### `std::map` keyed by `int64_t`, as a key-sorted association list -/

/-- Lookup (`map.find`). -/
def mapFind? {α : Type} (m : List (Int × α)) (k : Int) : Option α :=
  match m with
  | [] => none
  | (k₀, v₀) :: rest => if k = k₀ then some v₀ else mapFind? rest k

/-- Key membership (`map.find(k) != map.end()`). -/
def mapContains {α : Type} (m : List (Int × α)) (k : Int) : Bool :=
  (mapFind? m k).isSome

/-- Sorted insert-or-replace; the representation invariant of
`std::map` iteration order. -/
def mapSet {α : Type} (m : List (Int × α)) (k : Int) (v : α) :
    List (Int × α) :=
  match m with
  | [] => [(k, v)]
  | (k₀, v₀) :: rest =>
      if k < k₀ then (k, v) :: (k₀, v₀) :: rest
      else if k = k₀ then (k, v) :: rest
      else (k₀, v₀) :: mapSet rest k v

/-- `map[k]` mutation through `operator[]`: default-construct the entry
when absent (this is how late codec outputs re-create an erased frame),
then update it. -/
def mapUpdate {α : Type} [Inhabited α] (m : List (Int × α)) (k : Int)
    (f : α → α) : List (Int × α) :=
  mapSet m k (f ((mapFind? m k).getD default))

/-- `map.erase(k)`. -/
def mapErase {α : Type} (m : List (Int × α)) (k : Int) : List (Int × α) :=
  match m with
  | [] => []
  | (k₀, v₀) :: rest =>
      if k = k₀ then rest else (k₀, v₀) :: mapErase rest k

/-- Keys are strictly increasing (the `std::map` representation
invariant for the association-list model). -/
def mapSorted {α : Type} (m : List (Int × α)) : Prop :=
  m.Chain' (fun a b => a.1 < b.1)

/-- Sorted-unique insertion, modelling `std::set::emplace`. -/
def setInsert (s : List Int) (k : Int) : List Int :=
  match s with
  | [] => [k]
  | k₀ :: rest =>
      if k < k₀ then k :: k₀ :: rest
      else if k = k₀ then k₀ :: rest
      else k₀ :: setInsert rest k

/-- The shared state of one `HeicCompositeStream` instance: the members
mutated under `mMutex`, the pending queues of the two `CpuConsumer`s
(the buffers a source has produced but the pipeline has not locked
yet), and logs of the externally visible calls. -/
structure StreamState where
  pendingInputFrames : List (Int × InputFrame) := []
  settingsByFrameNumber : List (Int × HeicSettings) := []
  inputAppSegmentBuffers : List Int := []
  inputYuvBuffers : List Int := []
  codecOutputBuffers : List CodecOutputBufferInfo := []
  gainmapCodecOutputBuffers : List CodecOutputBufferInfo := []
  appSegmentFrameNumbers : List Int := []
  mainImageFrameNumbers : List Int := []
  codecOutputBufferFrameNumbers : List Int := []
  codecGainmapOutputBufferFrameNumbers : List Int := []
  codecOutputCounter : Nat := 0
  codecGainmapOutputCounter : Nat := 0
  captureResults : List (Int × (Int × Bool)) := []
  errorFrameNumbers : List Int := []
  exifErrorFrameNumbers : List Int := []
  codecInputBuffers : List Int := []
  gainmapCodecInputBuffers : List Int := []
  dequeuedOutputBufferCnt : Int := 0
  yuvBufferAcquired : Bool := false
  errorState : Bool := false
  gridTimestampUs : Int := 0
  numOutputTiles : Nat := 1
  numGainmapOutputTiles : Nat := 1
  gridRows : Nat := 1
  gridCols : Nat := 1
  gainmapGridRows : Nat := 1
  gainmapGridCols : Nat := 1
  outputWidth : Nat := 0
  outputHeight : Nat := 0
  gainmapOutputWidth : Nat := 0
  gainmapOutputHeight : Nat := 0
  gridWidth : Nat := kGridWidth
  gridHeight : Nat := kGridHeight
  gainmapGridWidth : Nat := kGridWidth
  gainmapGridHeight : Nat := kGridHeight
  useGrid : Bool := false
  hdrGainmapEnabled : Bool := false
  appSegmentSupported : Bool := false
  maxHeicBufferSize : Nat := 0
  quality : Int := -1
  streamFormat : Bool := false
  streamGainmapFormat : Bool := false
  appSegmentConsumerQueue : List LockedBuffer := []
  mainImageConsumerQueue : List LockedBuffer := []
  -- logs of externally visible calls
  delivered : List Int := []
  notifications : List (Int × Int) := []
  releasedCodecOutputIndices : List Int := []
  releasedGainmapCodecOutputIndices : List Int := []
  unlockedAppSegmentBuffers : Nat := 0
  unlockedMainImageBuffers : Nat := 0
  closedFds : Nat := 0
  canceledOutputBuffers : Nat := 0
  deriving Repr, DecidableEq

instance : Inhabited StreamState := ⟨{}⟩

/-! ### Producer callbacks -/

/-- `onHeicOutputFrameAvailable` (lines 495-519): outside the error
state, a buffer with a positive size and without the codec-config flag
is queued for attribution; every other buffer is released back to the
codec immediately. -/
def onHeicOutputFrameAvailable (s : StreamState)
    (info : CodecOutputBufferInfo) (isGainmap : Bool) : StreamState :=
  if !s.errorState then
    if info.size > 0 && (info.flags &&& bufferFlagCodecConfig) = 0 then
      if isGainmap then
        { s with gainmapCodecOutputBuffers :=
            s.gainmapCodecOutputBuffers ++ [info] }
      else
        { s with codecOutputBuffers := s.codecOutputBuffers ++ [info] }
    else
      if isGainmap then
        { s with releasedGainmapCodecOutputIndices :=
            s.releasedGainmapCodecOutputIndices ++ [info.index] }
      else
        { s with releasedCodecOutputIndices :=
            s.releasedCodecOutputIndices ++ [info.index] }
  else
    if isGainmap then
      { s with releasedGainmapCodecOutputIndices :=
          s.releasedGainmapCodecOutputIndices ++ [info.index] }
    else
      { s with releasedCodecOutputIndices :=
          s.releasedCodecOutputIndices ++ [info.index] }

/-- `onHeicInputFrameAvailable` (lines 521-531): outside the
tiling/HDR-gainmap configuration the codec YUV input mode is not in
use, so the index is dropped (the early return of lines 524-527);
otherwise it joins the matching input queue. -/
def onHeicInputFrameAvailable (s : StreamState) (index : Int)
    (isGainmap : Bool) : StreamState :=
  if !s.useGrid && !s.hdrGainmapEnabled then s
  else if isGainmap then
    { s with gainmapCodecInputBuffers := s.gainmapCodecInputBuffers ++ [index] }
  else
    { s with codecInputBuffers := s.codecInputBuffers ++ [index] }

/-- `onBufferReleased` (lines 346-364): an error release is dropped; a
main-image release records the frame number for YUV matching and codec
output attribution (and gainmap attribution when HDR is on); an
app-segment release records it for app-segment matching. -/
def onBufferReleased (s : StreamState) (isMainImageStream : Bool)
    (frameNumber : Int) (isError : Bool) : StreamState :=
  if isError then s
  else if isMainImageStream then
    let s := { s with
      mainImageFrameNumbers := s.mainImageFrameNumbers ++ [frameNumber]
      codecOutputBufferFrameNumbers :=
        s.codecOutputBufferFrameNumbers ++ [frameNumber] }
    if s.hdrGainmapEnabled then
      { s with codecGainmapOutputBufferFrameNumbers :=
          s.codecGainmapOutputBufferFrameNumbers ++ [frameNumber] }
    else s
  else
    { s with appSegmentFrameNumbers := s.appSegmentFrameNumbers ++ [frameNumber] }

/-- `onBufferRequestForFrameNumber` (lines 368-394): outside the error
state, record the request's orientation/quality settings. -/
def onBufferRequestForFrameNumber (s : StreamState) (frameNumber : Int)
    (orientationArg quality : Int) : StreamState :=
  if s.errorState then s
  else
    let st : HeicSettings := { orientation := orientationArg, quality := quality }
    { s with settingsByFrameNumber := mapSet s.settingsByFrameNumber frameNumber st }

/-- `onShutter` (lines 748-762): mark the settings entry (if present)
shutter-notified with the authoritative timestamp. -/
def onShutter (s : StreamState) (frameNumber ts requestId : Int) :
    StreamState :=
  if s.errorState then s
  else if mapContains s.settingsByFrameNumber frameNumber then
    { s with settingsByFrameNumber :=
        mapUpdate s.settingsByFrameNumber frameNumber fun st =>
          { st with shutterNotified := true, timestamp := ts
                    requestId := requestId } }
  else s

/-- `onFrameAvailable` (lines 396-423) for the app-segment data space:
the buffer joins the consumer queue and its timestamp is recorded. -/
def onFrameAvailableAppSegment (s : StreamState) (buf : LockedBuffer) :
    StreamState :=
  if s.errorState then
    { s with appSegmentConsumerQueue := s.appSegmentConsumerQueue ++ [buf] }
  else
    { s with
        appSegmentConsumerQueue := s.appSegmentConsumerQueue ++ [buf]
        inputAppSegmentBuffers := s.inputAppSegmentBuffers ++ [buf.timestamp] }

/-- `onFrameAvailable` for the main-image (YUV) data space: the buffer
joins the consumer queue either way, but its timestamp is recorded for
YUV matching only when the tiling/HDR-gainmap YUV input mode is in use
(the early return of lines 411-415 skips it otherwise) and the stream
is not in the error state. -/
def onFrameAvailableMain (s : StreamState) (buf : LockedBuffer) :
    StreamState :=
  if !s.useGrid && !s.hdrGainmapEnabled then
    { s with mainImageConsumerQueue := s.mainImageConsumerQueue ++ [buf] }
  else if s.errorState then
    { s with mainImageConsumerQueue := s.mainImageConsumerQueue ++ [buf] }
  else
    { s with
        mainImageConsumerQueue := s.mainImageConsumerQueue ++ [buf]
        inputYuvBuffers := s.inputYuvBuffers ++ [buf.timestamp] }

/-- `onHeicCodecError` (lines 649-652). -/
def onHeicCodecError (s : StreamState) : StreamState :=
  { s with errorState := true }

/-- `onRequestError` (lines 2433-2445): erase the settings entry; when
none was erased the frame is already pending, so flag it failed. -/
def onRequestError (s : StreamState) (frameNumber : Int) : StreamState :=
  if mapContains s.settingsByFrameNumber frameNumber then
    { s with settingsByFrameNumber :=
        mapErase s.settingsByFrameNumber frameNumber }
  else
    { s with errorFrameNumbers := setInsert s.errorFrameNumbers frameNumber }

/-- `flagAnExifErrorFrameNumber` (lines 2375-2379). -/
def flagAnExifErrorFrameNumber (s : StreamState) (frameNumber : Int) :
    StreamState :=
  { s with exifErrorFrameNumbers := setInsert s.exifErrorFrameNumbers frameNumber }

/-- Modelled from the spec: `flagAnErrorFrameNumber` lives in the
`CompositeStream` base class, which is not part of this tree.  Per the
buffer-level error notification contract (spec section 6/7) it records
the frame number in the pending error set consumed by
`compilePendingInputLocked`. -/
def flagAnErrorFrameNumber (s : StreamState) (frameNumber : Int) :
    StreamState :=
  { s with errorFrameNumbers := setInsert s.errorFrameNumbers frameNumber }

/-- `onStreamBufferError` (lines 2381-2399). -/
def onStreamBufferError (s : StreamState) (isMainImageStream : Bool)
    (frameNumber : Int) : StreamState :=
  if isMainImageStream then flagAnErrorFrameNumber s frameNumber
  else flagAnExifErrorFrameNumber s frameNumber

/-- Modelled from the spec: capture-result delivery is handled by the
`CompositeStream` base class (not in this tree), which stores the
result keyed by the shutter timestamp together with its frame number
before signalling the worker; `metadataPresent` stands for the payload. -/
def onResultReceived (s : StreamState) (ts frameNumber : Int) : StreamState :=
  { s with captureResults := mapSet s.captureResults ts (frameNumber, true) }

/-- `onResultError` (lines 2401-2431): look up the shutter timestamp in
the settings map, then in the pending frames; when found, store an
empty capture result under it. -/
def onResultError (s : StreamState) (frameNumber : Int) : StreamState :=
  let ts :=
    match mapFind? s.settingsByFrameNumber frameNumber with
    | some st => st.timestamp
    | none =>
        match mapFind? s.pendingInputFrames frameNumber with
        | some f => f.timestamp
        | none => -1
  if ts = -1 then s
  else { s with captureResults := mapSet s.captureResults ts (frameNumber, false) }

/-! ### `compilePendingInputLocked` (lines 764-1016) -/

/-- First loop: promote shutter-notified settings into
`mPendingInputFrames`; on the transition to a single pending frame,
apply that frame's quality (`updateCodecQualityLocked`, whose
`setParameters` call is taken to succeed). -/
def promoteSettings (s : StreamState) :
    List (Int × HeicSettings) → StreamState
  | [] => s
  | (fn, st) :: rest =>
      if st.shutterNotified then
        let pending := mapUpdate s.pendingInputFrames fn fun f =>
          { f with orientation := st.orientation, quality := st.quality
                   timestamp := st.timestamp, requestId := st.requestId }
        let s' := { s with pendingInputFrames := pending
                           settingsByFrameNumber :=
                             mapErase s.settingsByFrameNumber fn }
        let s' :=
          if pending.length = 1 then
            match pending with
            | (_, f) :: _ =>
                if f.quality ≠ s'.quality then { s' with quality := f.quality }
                else s'
            | [] => s'
          else s'
        promoteSettings s' rest
      else promoteSettings s rest

/-- Second loop: match locked app-segment buffers (in delivery order)
against the expected frame numbers.  A timestamp mismatch flags an
error on the map entry keyed by the *timestamp* value, exactly as the
code's `mPendingInputFrames[*it].error = true` does. -/
def matchAppSegmentGo (s : StreamState) :
    List Int → StreamState
  | [] => s
  | ts :: restTs =>
      match s.appSegmentFrameNumbers with
      | [] => s
      | fn :: restFns =>
          match s.appSegmentConsumerQueue with
          | [] => s
          | imgBuffer :: restQ =>
              if ts ≠ imgBuffer.timestamp then
                matchAppSegmentGo { s with
                  appSegmentConsumerQueue := restQ
                  unlockedAppSegmentBuffers := s.unlockedAppSegmentBuffers + 1
                  pendingInputFrames := mapUpdate s.pendingInputFrames ts
                    (fun f => { f with error := true })
                  inputAppSegmentBuffers := restTs } restTs
              else if !(mapContains s.pendingInputFrames fn) then
                matchAppSegmentGo { s with
                  appSegmentConsumerQueue := restQ
                  inputAppSegmentBuffers := restTs
                  appSegmentFrameNumbers := restFns } restTs
              else if ((mapFind? s.pendingInputFrames fn).getD default).error then
                matchAppSegmentGo { s with
                  appSegmentConsumerQueue := restQ
                  unlockedAppSegmentBuffers := s.unlockedAppSegmentBuffers + 1
                  inputAppSegmentBuffers := restTs
                  appSegmentFrameNumbers := restFns } restTs
              else
                matchAppSegmentGo { s with
                  appSegmentConsumerQueue := restQ
                  pendingInputFrames := mapUpdate s.pendingInputFrames fn
                    (fun f => { f with appSegmentBuffer := imgBuffer })
                  inputAppSegmentBuffers := restTs
                  appSegmentFrameNumbers := restFns } restTs

/-- Wrapper keeping the recursion structural: the traversed list is the
`inputAppSegmentBuffers` field itself. -/
def matchAppSegmentLoop (s : StreamState) : StreamState :=
  matchAppSegmentGo s s.inputAppSegmentBuffers

/-- Third loop: match locked main-image (YUV) buffers; note the code
does not unlock the buffer on a timestamp mismatch here. -/
def matchYuvGo (s : StreamState) : List Int → StreamState
  | [] => s
  | ts :: restTs =>
      if s.yuvBufferAcquired then s
      else
        match s.mainImageFrameNumbers with
        | [] => s
        | fn :: restFns =>
            match s.mainImageConsumerQueue with
            | [] => s
            | imgBuffer :: restQ =>
                if ts ≠ imgBuffer.timestamp then
                  matchYuvGo { s with
                    mainImageConsumerQueue := restQ
                    pendingInputFrames := mapUpdate s.pendingInputFrames ts
                      (fun f => { f with error := true })
                    inputYuvBuffers := restTs } restTs
                else if !(mapContains s.pendingInputFrames fn) then
                  matchYuvGo { s with
                    mainImageConsumerQueue := restQ
                    inputYuvBuffers := restTs
                    mainImageFrameNumbers := restFns } restTs
                else if ((mapFind? s.pendingInputFrames fn).getD default).error then
                  matchYuvGo { s with
                    mainImageConsumerQueue := restQ
                    unlockedMainImageBuffers := s.unlockedMainImageBuffers + 1
                    inputYuvBuffers := restTs
                    mainImageFrameNumbers := restFns } restTs
                else
                  matchYuvGo { s with
                    mainImageConsumerQueue := restQ
                    pendingInputFrames := mapUpdate s.pendingInputFrames fn
                      (fun f => { f with yuvBuffer := imgBuffer })
                    yuvBufferAcquired := true
                    inputYuvBuffers := restTs
                    mainImageFrameNumbers := restFns } restTs

/-- Structural wrapper, as for the app-segment loop. -/
def matchYuvLoop (s : StreamState) : StreamState :=
  matchYuvGo s s.inputYuvBuffers

/-- Fourth loop: FIFO attribution of compressed primary outputs to the
front of the expected-frame-number queue, popping it after
`mNumOutputTiles` outputs. -/
def attributeCodecOutputsGo (s : StreamState) :
    List CodecOutputBufferInfo → StreamState
  | [] => s
  | info :: rest =>
      match s.codecOutputBufferFrameNumbers with
      | [] => s
      | fn :: restFns =>
          let counter := s.codecOutputCounter + 1
          let popped := counter = s.numOutputTiles
          attributeCodecOutputsGo { s with
            codecOutputBuffers := rest
            codecOutputBufferFrameNumbers :=
              if popped then restFns else fn :: restFns
            codecOutputCounter := if popped then 0 else counter
            pendingInputFrames := mapUpdate s.pendingInputFrames fn
              (fun f => { f with codecOutputBuffers := f.codecOutputBuffers ++ [info] }) }
            rest

/-- Structural wrapper. -/
def attributeCodecOutputs (s : StreamState) : StreamState :=
  attributeCodecOutputsGo s s.codecOutputBuffers

/-- Fifth loop: FIFO attribution of compressed gainmap outputs. -/
def attributeGainmapCodecOutputsGo (s : StreamState) :
    List CodecOutputBufferInfo → StreamState
  | [] => s
  | info :: rest =>
      match s.codecGainmapOutputBufferFrameNumbers with
      | [] => s
      | fn :: restFns =>
          let counter := s.codecGainmapOutputCounter + 1
          let popped := counter = s.numGainmapOutputTiles
          attributeGainmapCodecOutputsGo { s with
            gainmapCodecOutputBuffers := rest
            codecGainmapOutputBufferFrameNumbers :=
              if popped then restFns else fn :: restFns
            codecGainmapOutputCounter := if popped then 0 else counter
            pendingInputFrames := mapUpdate s.pendingInputFrames fn
              (fun f => { f with gainmapCodecOutputBuffers :=
                  f.gainmapCodecOutputBuffers ++ [info] }) }
            rest

/-- Structural wrapper. -/
def attributeGainmapCodecOutputs (s : StreamState) : StreamState :=
  attributeGainmapCodecOutputsGo s s.gainmapCodecOutputBuffers

/-- Sixth loop: attach capture results whose recorded timestamp matches
the frame's; without app-segment support the frame is flagged
`exifError` so the minimal segment path runs. -/
def drainCaptureResults (s : StreamState) :
    List (Int × (Int × Bool)) → StreamState
  | [] => s
  | (ts, (fn, _metadataPresent)) :: rest =>
      let attach : InputFrame → InputFrame := fun f =>
        let f := { f with result := true }
        if !s.appSegmentSupported then { f with exifError := true } else f
      let s' :=
        if ts ≥ 0 ∧ mapContains s.pendingInputFrames fn then
          if ((mapFind? s.pendingInputFrames fn).getD default).timestamp = ts then
            let m := mapUpdate s.pendingInputFrames fn attach
            { s with pendingInputFrames := m }
          else s
        else s
      drainCaptureResults
        { s' with captureResults := mapErase s'.captureResults ts } rest

/-- Seventh loop: apply the pending error-frame set. -/
def applyErrorFrameNumbers (s : StreamState) : List Int → StreamState
  | [] => s
  | fn :: rest =>
      let s' :=
        if mapContains s.pendingInputFrames fn then
          let m := mapUpdate s.pendingInputFrames fn fun f => { f with error := true }
          { s with pendingInputFrames := m }
        else s
      applyErrorFrameNumbers
        { s' with errorFrameNumbers := s'.errorFrameNumbers.erase fn } rest

/-- Eighth loop: apply the pending app-segment-error set. -/
def applyExifErrorFrameNumbers (s : StreamState) : List Int → StreamState
  | [] => s
  | fn :: rest =>
      let s' :=
        if mapContains s.pendingInputFrames fn then
          let m := mapUpdate s.pendingInputFrames fn fun f => { f with exifError := true }
          { s with pendingInputFrames := m }
        else s
      applyExifErrorFrameNumbers
        { s' with exifErrorFrameNumbers := s'.exifErrorFrameNumbers.erase fn } rest

/-- Hand `n` codec input buffers to one frame, tile by tile, stamping
each with the strictly increasing artificial grid timestamp. -/
def feedTiles (isGainmap : Bool) (f : InputFrame) (bufs : List Int)
    (gridTs : Int) : Nat → InputFrame × List Int × Int
  | 0 => (f, bufs, gridTs)
  | n + 1 =>
      match bufs with
      | [] => (f, [], gridTs)
      | b :: rest =>
          if isGainmap then
            let info : CodecInputBufferInfo :=
              ⟨b, gridTs, f.gainmapCodecInputCounter⟩
            feedTiles isGainmap
              { f with
                gainmapCodecInputBuffers := f.gainmapCodecInputBuffers ++ [info]
                gainmapCodecInputCounter := f.gainmapCodecInputCounter + 1 }
              rest (gridTs + 1) n
          else
            let info : CodecInputBufferInfo := ⟨b, gridTs, f.codecInputCounter⟩
            feedTiles isGainmap
              { f with
                codecInputBuffers := f.codecInputBuffers ++ [info]
                codecInputCounter := f.codecInputCounter + 1 }
              rest (gridTs + 1) n

/-- Ninth/tenth loops: walk the frame map in order and feed the first
frame with spare input-tile capacity, then stop (the loop body ends in
`break`). -/
def distributeLoop (isGainmap : Bool) (rows cols : Nat)
    (m : List (Int × InputFrame)) (bufs : List Int) (gridTs : Int) :
    List (Int × InputFrame) × List Int × Int :=
  match m with
  | [] => ([], bufs, gridTs)
  | (k, f) :: rest =>
      if bufs.length = 0 then ((k, f) :: rest, bufs, gridTs)
      else
        let counter := if isGainmap then f.gainmapCodecInputCounter
          else f.codecInputCounter
        if counter < rows * cols then
          let n := min bufs.length (rows * cols - counter)
          let r := feedTiles isGainmap f bufs gridTs n
          ((k, r.1) :: rest, r.2.1, r.2.2)
        else
          let r := distributeLoop isGainmap rows cols rest bufs gridTs
          ((k, f) :: r.1, r.2.1, r.2.2)

/-- `compilePendingInputLocked`, as the composition of its loops. -/
def compilePendingInputLocked (s : StreamState) : StreamState :=
  let s := promoteSettings s s.settingsByFrameNumber
  let s := matchAppSegmentLoop s
  let s := matchYuvLoop s
  let s := attributeCodecOutputs s
  let s := attributeGainmapCodecOutputs s
  let s := drainCaptureResults s s.captureResults
  let s := applyErrorFrameNumbers s s.errorFrameNumbers
  let s := applyExifErrorFrameNumbers s s.exifErrorFrameNumbers
  let r := distributeLoop false s.gridRows s.gridCols
    s.pendingInputFrames s.codecInputBuffers s.gridTimestampUs
  let s := { s with pendingInputFrames := r.1, codecInputBuffers := r.2.1
                    gridTimestampUs := r.2.2 }
  let r2 := distributeLoop true s.gainmapGridRows s.gainmapGridCols
    s.pendingInputFrames s.gainmapCodecInputBuffers s.gridTimestampUs
  { s with pendingInputFrames := r2.1, gainmapCodecInputBuffers := r2.2.1
           gridTimestampUs := r2.2.2 }

/-! ### Frame selection (lines 1018-1071) -/

/-- `appSegmentReady` as computed by `getNextReadyInputLocked` and
`processInputFrame`. -/
def appSegmentReadyOf (f : InputFrame) : Bool :=
  (f.appSegmentBuffer.data.isSome || f.exifError) && !f.appSegmentWritten &&
    f.result && f.muxer

/-- `codecOutputReady`. -/
def codecOutputReadyOf (f : InputFrame) : Bool :=
  !f.codecOutputBuffers.isEmpty || !f.gainmapCodecOutputBuffers.isEmpty

/-- `codecInputReady`. -/
def codecInputReadyOf (f : InputFrame) : Bool :=
  f.yuvBuffer.data.isSome && !f.codecInputBuffers.isEmpty

/-- `gainmapCodecInputReady` (only computed by `processInputFrame`). -/
def gainmapCodecInputReadyOf (f : InputFrame) : Bool :=
  f.gainmapImage && !f.gainmapCodecInputBuffers.isEmpty

/-- `hasOutputBuffer`. -/
def hasOutputBufferOf (dequeuedOutputBufferCnt : Int) (f : InputFrame) : Bool :=
  f.muxer || dequeuedOutputBufferCnt < kMaxOutputSurfaceProducerCount

/-- The readiness test of `getNextReadyInputLocked` for one frame. -/
def frameReady (dequeuedOutputBufferCnt : Int) (f : InputFrame) : Bool :=
  !f.error && (appSegmentReadyOf f ||
    (codecOutputReadyOf f && hasOutputBufferOf dequeuedOutputBufferCnt f) ||
    codecInputReadyOf f)

/-- `getNextReadyInputLocked` (lines 1018-1058): scan the frame map in
ascending key order, stop at the first ready non-error frame, lazily
copying the stream-level format descriptors onto it. -/
def getNextReadyInputLocked (s : StreamState) : Option Int × StreamState :=
  match go s.pendingInputFrames with
  | none => (none, s)
  | some (k, f) =>
      let f := if !f.format && s.streamFormat then { f with format := true } else f
      let f := if !f.gainmapFormat && s.streamGainmapFormat then
          { f with gainmapFormat := true } else f
      (some k, { s with pendingInputFrames := mapSet s.pendingInputFrames k f })
where
  go : List (Int × InputFrame) → Option (Int × InputFrame)
    | [] => none
    | (k, f) :: rest =>
        if frameReady s.dequeuedOutputBufferCnt f then some (k, f) else go rest

/-- `getNextFailingInputLocked` (lines 1060-1071): the first frame in
key order with the error flag; `none` models the `-1` return. -/
def getNextFailingInputLocked (s : StreamState) : Option Int :=
  go s.pendingInputFrames
where
  go : List (Int × InputFrame) → Option Int
    | [] => none
    | (k, f) :: rest => if f.error then some k else go rest

/-! ### `processInputFrame` and its helpers (lines 1073-1696) -/

/-- Outcomes of the external calls a `processInputFrame` pass can make
(codec, muxer, tonemapper, output surface, Exif library).  All-true is
the nominal environment. -/
structure ProcessEnv where
  dequeueBufferOk : Bool := true
  memfdFd : Int := 3
  muxerCreateOk : Bool := true
  setOrientationHintOk : Bool := true
  addTrackOk : Bool := true
  gainmapAddTrackOk : Bool := true
  muxerStartOk : Bool := true
  writeSampleOk : Bool := true
  getInputBufferOk : Bool := true
  copyTileOk : Bool := true
  queueInputBufferOk : Bool := true
  tonemapOk : Bool := true
  generateGainMapOk : Bool := true
  metadataToFractionsOk : Bool := true
  encodeGainmapMetadataOk : Bool := true
  encodedGainmapMetadata : List Nat := []
  getOutputBufferOk : Bool := true
  codecOutputData : Int → List Nat := fun _ => []
  gainmapCodecOutputData : Int → List Nat := fun _ => []
  lockOutputBufferOk : Bool := true
  muxedFileSize : Nat := 0
  readOk : Bool := true
  setTimestampOk : Bool := true
  queueBufferOk : Bool := true
  exifInitializeOk : Bool := true
  exifSetFromMetadataOk : Bool := true
  exifSetOrientationOk : Bool := true
  exifGenerateApp1Ok : Bool := true
  exifApp1Bytes : List Nat := []

/-- All-success environment with a given muxed container size. -/
def nominalEnv (muxedFileSize : Nat) : ProcessEnv :=
  { muxedFileSize := muxedFileSize }

/-- `startMuxerForInputFrame` (lines 1210-1274): dequeue the output
buffer, create the memfd-backed muxer, add the track(s) and arm the
pending tile counters from `mNumOutputTiles`/`mNumGainmapOutputTiles`. -/
def startMuxerForInputFrame (s : StreamState) (f : InputFrame)
    (env : ProcessEnv) : Status × StreamState × InputFrame :=
  if !env.dequeueBufferOk then (Status.unknownError, s, f)
  else
    let f := { f with anb := true, fenceFd := 0 }
    let s := { s with dequeuedOutputBufferCnt := s.dequeuedOutputBufferCnt + 1 }
    if env.memfdFd < 0 then (Status.noInit, s, f)
    else
      let f := { f with fileFd := env.memfdFd }
      if !env.muxerCreateOk then (Status.noInit, s, f)
      else
        let f := { f with muxer := true }
        if !env.setOrientationHintOk then (Status.unknownError, s, f)
        else if !env.addTrackOk then (Status.noInit, s, f)
        else
          let f := { f with trackIndex := 0
                            pendingOutputTiles := s.numOutputTiles }
          if f.gainmapFormat then
            if !env.gainmapAddTrackOk then (Status.noInit, s, f)
            else
              let f := { f with gainmapTrackIndex := 1
                                gainmapPendingOutputTiles := s.numGainmapOutputTiles }
              if !env.muxerStartOk then (Status.unknownError, s, f)
              else (Status.ok, s, f)
          else if !env.muxerStartOk then (Status.unknownError, s, f)
          else (Status.ok, s, f)

/-- The `Exif APP1` transport marker assembled by `processAppSegment`
(lines 1318-1320): the ASCII bytes of Exif, then 0xFF 0xE1 and the
big-endian length of the regenerated APP1 payload. -/
def kExifApp1Marker (newApp1Length : Nat) : List Nat :=
  [69, 120, 105, 102, 0xFF, 0xE1, newApp1Length / 256 % 256,
    newApp1Length % 256]

/-- `processAppSegment` (lines 1276-1355).  On a marker-validation
failure of a present (non-error) buffer the function fails with
`NO_INIT` and writes nothing; on the `exifError` path it writes a
minimal segment assembled from an empty Exif structure. -/
def processAppSegment (s : StreamState) (f : InputFrame)
    (env : ProcessEnv) : Status × StreamState × InputFrame :=
  let bufBytes := f.appSegmentBuffer.data.getD []
  let maxSize := f.appSegmentBuffer.width * f.appSegmentBuffer.height
  let parsed : Option (Nat × Nat) :=
    if !f.exifError then findAppSegmentsSize bufBytes maxSize
    else some (0, 0)
  match parsed with
  | none => (Status.noInit, s, f)
  | some (appSegmentSize, app1Size) =>
      if !env.exifInitializeOk then (Status.badValue, s, f)
      else if !env.exifSetFromMetadataOk then (Status.badValue, s, f)
      else if !env.exifSetOrientationOk then (Status.badValue, s, f)
      else if !env.exifGenerateApp1Ok then (Status.badValue, s, f)
      else
        let newApp1Length := env.exifApp1Bytes.length
        let sampleBytes := kExifApp1Marker newApp1Length ++
          env.exifApp1Bytes ++
          (bufBytes.drop app1Size).take (appSegmentSize - app1Size)
        if !env.writeSampleOk then (Status.unknownError, s, f)
        else
          let sample : MuxerSample :=
            { trackIndex := f.trackIndex, bytes := sampleBytes
              timestamp := f.timestamp, flags := bufferFlagMuxerData }
          let f := { f with muxerSamples := f.muxerSamples ++ [sample]
                            appSegmentWritten := true }
          if !f.exifError then
            let f := { f with
              appSegmentBuffer := { f.appSegmentBuffer with data := none }
              exifError := false }
            (Status.ok,
              { s with unlockedAppSegmentBuffers :=
                  s.unlockedAppSegmentBuffers + 1 }, f)
          else (Status.ok, s, f)

/-- `generateBaseImageAndGainmap` (lines 1357-1450): tonemap the base
image, derive the gainmap raster, encode the fractional (ISO 21496-1)
gainmap metadata and prepend the one-byte version 0. -/
def generateBaseImageAndGainmap (f : InputFrame) (env : ProcessEnv) :
    Status × InputFrame :=
  let f := { f with baseBuffer := true }
  if !env.tonemapOk then (Status.badValue, f)
  else
    let f := { f with baseImage := true }
    if !env.generateGainMapOk then (Status.badValue, f)
    else if !env.metadataToFractionsOk then (Status.badValue, f)
    else if !env.encodeGainmapMetadataOk then (Status.badValue, f)
    else
      let f := { f with
        isoGainmapMetadata := 0 :: env.encodedGainmapMetadata
        gainmapImage := true }
      (Status.ok, f)

/-- `processCodecInputFrame` (lines 1452-1495): copy and queue each
pending input tile (each via `tileRect` over the primary grid), then
clear the list; any codec call failing aborts without clearing. -/
def processCodecInputFrame (_s : StreamState) (f : InputFrame)
    (env : ProcessEnv) : Status × InputFrame :=
  if f.codecInputBuffers.isEmpty ||
      (env.getInputBufferOk && env.copyTileOk && env.queueInputBufferOk) then
    (Status.ok, { f with codecInputBuffers := [] })
  else (Status.unknownError, f)

/-- `processCodecGainmapInputFrame` (lines 1497-1539). -/
def processCodecGainmapInputFrame (_s : StreamState) (f : InputFrame)
    (env : ProcessEnv) : Status × InputFrame :=
  if f.gainmapCodecInputBuffers.isEmpty ||
      (env.getInputBufferOk && env.copyTileOk && env.queueInputBufferOk) then
    (Status.ok, { f with gainmapCodecInputBuffers := [] })
  else (Status.unknownError, f)

/-- `processOneCodecOutputFrame` (lines 1541-1585): write the head
output buffer as a primary-track sample, release it to the codec and
decrement `pendingOutputTiles` (clamped at zero, as the code only
warns when it is already zero). -/
def processOneCodecOutputFrame (s : StreamState) (f : InputFrame)
    (env : ProcessEnv) : Status × StreamState × InputFrame :=
  match f.codecOutputBuffers with
  | [] => (Status.ok, s, f)
  | it :: rest =>
      if !env.getOutputBufferOk then (Status.unknownError, s, f)
      else
        let sample : MuxerSample :=
          { trackIndex := f.trackIndex, bytes := env.codecOutputData it.index
            timestamp := f.timestamp, flags := 0 }
        if !env.writeSampleOk then (Status.unknownError, s, f)
        else
          let s := { s with releasedCodecOutputIndices :=
              s.releasedCodecOutputIndices ++ [it.index] }
          let f := { f with
            muxerSamples := f.muxerSamples ++ [sample]
            pendingOutputTiles := f.pendingOutputTiles - 1
            codecOutputBuffers := rest }
          (Status.ok, s, f)

/-- The `'g' 'm' 'a' 'p' 0 0` marker prefixed to every compressed
gainmap sample (line 1603). -/
def kGainmapMarker : List Nat := [103, 109, 97, 112, 0, 0]

/-- The `'t' 'm' 'a' 'p' 0 0` marker prefixed to the gainmap metadata
sample (line 1143). -/
def kGainmapMetaMarker : List Nat := [116, 109, 97, 112, 0, 0]

/-- The HDR gainmap metadata sample written by `processInputFrame`
(lines 1142-1164): the tmap marker followed by the ISO fractional
metadata blob, stamped with the frame timestamp. -/
def gainmapMetadataSample (f : InputFrame) : MuxerSample :=
  { trackIndex := f.trackIndex
    bytes := kGainmapMetaMarker ++ f.isoGainmapMetadata
    timestamp := f.timestamp
    flags := bufferFlagMuxerData }

/-- `processOneCodecGainmapOutputFrame` (lines 1587-1633). -/
def processOneCodecGainmapOutputFrame (s : StreamState) (f : InputFrame)
    (env : ProcessEnv) : Status × StreamState × InputFrame :=
  match f.gainmapCodecOutputBuffers with
  | [] => (Status.ok, s, f)
  | it :: rest =>
      if !env.getOutputBufferOk then (Status.unknownError, s, f)
      else
        let sample : MuxerSample :=
          { trackIndex := f.gainmapTrackIndex
            bytes := kGainmapMarker ++ env.gainmapCodecOutputData it.index
            timestamp := f.timestamp, flags := bufferFlagMuxerData }
        if !env.writeSampleOk then (Status.unknownError, s, f)
        else
          let s := { s with releasedGainmapCodecOutputIndices :=
              s.releasedGainmapCodecOutputIndices ++ [it.index] }
          let f := { f with
            muxerSamples := f.muxerSamples ++ [sample]
            gainmapPendingOutputTiles := f.gainmapPendingOutputTiles - 1
            gainmapCodecOutputBuffers := rest }
          (Status.ok, s, f)

/-- `processCompletedInputFrame` (lines 1635-1696): stop the muxer,
check the container size against the capacity budget less the blob
trailer, read it back, close the temp fd, stamp the timestamp and
queue the buffer to the output sink.  The source's
`mMaxHeicBufferSize - sizeof(CameraBlob)` is `size_t` arithmetic; it is
modelled with truncated `Nat` subtraction, which agrees with it exactly
whenever the budget is at least `sizeof(CameraBlob)` (every budget
`initializeCodec` produces for a non-degenerate stream, and the only
regime any theorem below evaluates this check in); for a sub-8-byte
budget the source would wrap and accept, where the model rejects. -/
def processCompletedInputFrame (s : StreamState) (frameNumber : Int)
    (f : InputFrame) (env : ProcessEnv) : Status × StreamState × InputFrame :=
  if !env.lockOutputBufferOk then (Status.unknownError, s, f)
  else
    let fSize := env.muxedFileSize
    if fSize > s.maxHeicBufferSize - sizeofCameraBlob then
      (Status.badValue, s, f)
    else if !env.readOk then (Status.badValue, s, f)
    else
      let s := { s with closedFds := s.closedFds + 1 }
      let f := { f with fileFd := -1 }
      if !env.setTimestampOk then (Status.unknownError, s, f)
      else if !env.queueBufferOk then (Status.unknownError, s, f)
      else
        let f := { f with anb := false }
        let s := { s with
          dequeuedOutputBufferCnt := s.dequeuedOutputBufferCnt - 1
          delivered := s.delivered ++ [frameNumber] }
        (Status.ok, s, f)

/-- The `while (!inputFrame.codecOutputBuffers.empty())` loop of
`processInputFrame` (lines 1177-1184): the traversed list mirrors
`f.codecOutputBuffers` (on success `processOneCodecOutputFrame` pops
exactly its head), keeping the recursion structural. -/
def drainCodecOutputsGo (s : StreamState) (f : InputFrame)
    (env : ProcessEnv) :
    List CodecOutputBufferInfo → Status × StreamState × InputFrame
  | [] => (Status.ok, s, f)
  | _ :: rest =>
      match processOneCodecOutputFrame s f env with
      | (Status.ok, s', f') => drainCodecOutputsGo s' f' env rest
      | r => r

/-- Structural wrapper for the drain loop. -/
def drainCodecOutputs (s : StreamState) (f : InputFrame)
    (env : ProcessEnv) : Status × StreamState × InputFrame :=
  drainCodecOutputsGo s f env f.codecOutputBuffers

/-- The gainmap drain loop (lines 1187-1194). -/
def drainGainmapCodecOutputsGo (s : StreamState) (f : InputFrame)
    (env : ProcessEnv) :
    List CodecOutputBufferInfo → Status × StreamState × InputFrame
  | [] => (Status.ok, s, f)
  | _ :: rest =>
      match processOneCodecGainmapOutputFrame s f env with
      | (Status.ok, s', f') => drainGainmapCodecOutputsGo s' f' env rest
      | r => r

/-- Structural wrapper for the gainmap drain loop. -/
def drainGainmapCodecOutputs (s : StreamState) (f : InputFrame)
    (env : ProcessEnv) : Status × StreamState × InputFrame :=
  drainGainmapCodecOutputsGo s f env f.gainmapCodecOutputBuffers

/-- `processInputFrame` (lines 1073-1208), with the readiness booleans
computed once from the entry state exactly as in the code. -/
def processInputFrame (s : StreamState) (frameNumber : Int)
    (f : InputFrame) (env : ProcessEnv) : Status × StreamState × InputFrame :=
  let appSegmentReady := appSegmentReadyOf f
  let codecOutputReady := codecOutputReadyOf f
  let codecInputReady := codecInputReadyOf f
  let gainmapCodecInputReady := gainmapCodecInputReadyOf f
  let hasOutputBuffer := hasOutputBufferOf s.dequeuedOutputBufferCnt f
  let hasGainmapMetadata := !f.isoGainmapMetadata.isEmpty
  -- Handle inputs for Hevc tiling
  let step1 : Status × InputFrame :=
    if codecInputReady then
      if s.hdrGainmapEnabled && !f.baseBuffer then
        match generateBaseImageAndGainmap f env with
        | (Status.ok, f) => processCodecInputFrame s f env
        | r => r
      else processCodecInputFrame s f env
    else (Status.ok, f)
  match step1 with
  | (Status.ok, f) =>
      let step2 : Status × InputFrame :=
        if gainmapCodecInputReady then processCodecGainmapInputFrame s f env
        else (Status.ok, f)
      match step2 with
      | (Status.ok, f) =>
          if !(codecOutputReady && hasOutputBuffer) && !appSegmentReady then
            (Status.ok, s, f)
          else
            let step3 : Status × StreamState × InputFrame :=
              if !f.muxer then startMuxerForInputFrame s f env
              else (Status.ok, s, f)
            match step3 with
            | (Status.ok, s, f) =>
                let step4 : Status × StreamState × InputFrame :=
                  if hasGainmapMetadata then
                    let sample := gainmapMetadataSample f
                    if !env.writeSampleOk then (Status.unknownError, s, f)
                    else
                      (Status.ok, s,
                        { f with muxerSamples := f.muxerSamples ++ [sample]
                                 isoGainmapMetadata := [] })
                  else (Status.ok, s, f)
                match step4 with
                | (Status.ok, s, f) =>
                    let step5 : Status × StreamState × InputFrame :=
                      if appSegmentReady then processAppSegment s f env
                      else (Status.ok, s, f)
                    match step5 with
                    | (Status.ok, s, f) =>
                        match drainCodecOutputs s f env with
                        | (Status.ok, s, f) =>
                            match drainGainmapCodecOutputs s f env with
                            | (Status.ok, s, f) =>
                                if f.pendingOutputTiles = 0 &&
                                    f.gainmapPendingOutputTiles = 0 then
                                  if f.appSegmentWritten then
                                    processCompletedInputFrame s frameNumber f env
                                  else (Status.ok, s, f)
                                else (Status.ok, s, f)
                            | r => r
                        | r => r
                    | r => r
                | r => r
            | r => r
      | (st, f) => (st, s, f)
  | (st, f) => (st, s, f)

/-! ### Releasing frames (lines 1699-1790) and the worker loop -/

/-- `releaseInputFrameLocked` (lines 1699-1757): unlock/return every
buffer the frame still holds, emit the per-frame failure notification
when the frame (or the stream) is in error, close the temp fd and
cancel the dequeued output buffer. -/
def releaseInputFrameLocked (s : StreamState) (frameNumber : Int)
    (f : InputFrame) : StreamState × InputFrame :=
  match (if f.appSegmentBuffer.data.isSome then
      ({ s with unlockedAppSegmentBuffers := s.unlockedAppSegmentBuffers + 1 },
        { f with appSegmentBuffer := { f.appSegmentBuffer with data := none } })
    else (s, f)) with
  | (s, f) =>
    let outIdx := f.codecOutputBuffers.map fun b : CodecOutputBufferInfo => b.index
    let s := { s with releasedCodecOutputIndices := s.releasedCodecOutputIndices ++ outIdx }
    let f := { f with codecOutputBuffers := [] }
    let gmapIdx :=
      f.gainmapCodecOutputBuffers.map fun b : CodecOutputBufferInfo => b.index
    let s := { s with releasedGainmapCodecOutputIndices := s.releasedGainmapCodecOutputIndices ++ gmapIdx }
    let f := { f with gainmapCodecOutputBuffers := [] }
    match (if f.yuvBuffer.data.isSome then
        ({ s with unlockedMainImageBuffers := s.unlockedMainImageBuffers + 1
                  yuvBufferAcquired := false },
          { f with yuvBuffer := { f.yuvBuffer with data := none } })
      else (s, f)) with
    | (s, f) =>
      let f := { f with codecInputBuffers := [], gainmapCodecInputBuffers := [] }
      let s :=
        if f.error || s.errorState then
          { s with notifications := s.notifications ++ [(frameNumber, f.requestId)] }
        else s
      match (if f.fileFd ≥ 0 then
          ({ s with closedFds := s.closedFds + 1 }, { f with fileFd := -1 })
        else (s, f)) with
      | (s, f) =>
        if f.anb then
          ({ s with canceledOutputBuffers := s.canceledOutputBuffers + 1
                    dequeuedOutputBufferCnt := s.dequeuedOutputBufferCnt - 1 },
            { f with anb := false })
        else (s, f)

/-- The eviction loop of `releaseInputFramesLocked` (lines 1759-1773):
release and erase every frame that is in error or complete
(app segment written and both tile counters at zero).  Returns the new
map and the `inputFrameDone` flag. -/
def releaseInputFramesLoop (s : StreamState) :
    List (Int × InputFrame) → StreamState × List (Int × InputFrame) × Bool
  | [] => (s, [], false)
  | (k, f) :: rest =>
      if f.error || (f.appSegmentWritten && f.pendingOutputTiles = 0 &&
          f.gainmapPendingOutputTiles = 0) then
        let p := releaseInputFrameLocked s k f
        let r := releaseInputFramesLoop p.1 rest
        (r.1, r.2.1, true)
      else
        let r := releaseInputFramesLoop s rest
        (r.1, (k, f) :: r.2.1, r.2.2)

/-- `releaseInputFramesLocked` (lines 1759-1790), including the
best-effort quality update for the first remaining frame. -/
def releaseInputFramesLocked (s : StreamState) : StreamState :=
  let r := releaseInputFramesLoop s s.pendingInputFrames
  let s := { r.1 with pendingInputFrames := r.2.1 }
  if r.2.2 then
    match s.pendingInputFrames with
    | (_, f) :: _ =>
        if f.quality ≠ s.quality then { s with quality := f.quality } else s
    | [] => s
  else s

/-- One iteration of `threadLoop` (lines 2309-2373): in the error state
drain and release everything; otherwise compile pending inputs, pick
the next ready frame and process it (marking it failed if processing
errs), or release the first failing frame, or wait. -/
def threadLoopIteration (s : StreamState) (env : ProcessEnv) : StreamState :=
  if s.errorState then
    releaseInputFramesLocked (compilePendingInputLocked s)
  else
    let s := compilePendingInputLocked s
    match getNextReadyInputLocked s with
    | (some fn, s) =>
        let f := (mapFind? s.pendingInputFrames fn).getD default
        let r := processInputFrame s fn f env
        let f := if r.1 ≠ Status.ok then { r.2.2 with error := true } else r.2.2
        let s := { r.2.1 with
          pendingInputFrames := mapSet r.2.1.pendingInputFrames fn f }
        releaseInputFramesLocked s
    | (none, s) =>
        match getNextFailingInputLocked s with
        | some fn =>
            let f := (mapFind? s.pendingInputFrames fn).getD default
            let p := releaseInputFrameLocked s fn f
            { p.1 with pendingInputFrames := mapErase p.1.pendingInputFrames fn }
        | none => s

/-! ### The pipeline as an event system -/

/-- A producer event or one worker pass; the alphabet of the
transition system generated by the callbacks above. -/
inductive Event where
  | bufferReleased (isMainImageStream : Bool) (frameNumber : Int)
      (isError : Bool)
  | bufferRequest (frameNumber : Int) (orientationArg quality : Int)
  | shutter (frameNumber ts requestId : Int)
  | frameAvailAppSegment (buf : LockedBuffer)
  | frameAvailMain (buf : LockedBuffer)
  | codecOutput (info : CodecOutputBufferInfo) (isGainmap : Bool)
  | codecInput (index : Int) (isGainmap : Bool)
  | codecError
  | resultReceived (ts frameNumber : Int)
  | resultError (frameNumber : Int)
  | requestError (frameNumber : Int)
  | streamBufferError (isMainImageStream : Bool) (frameNumber : Int)
  | worker (env : ProcessEnv)

/-- The transition function: each event is the corresponding callback
under `mMutex`, a `worker` event is one `threadLoop` pass. -/
def step (s : StreamState) : Event → StreamState
  | Event.bufferReleased isMain fn isErr => onBufferReleased s isMain fn isErr
  | Event.bufferRequest fn o q => onBufferRequestForFrameNumber s fn o q
  | Event.shutter fn ts rid => onShutter s fn ts rid
  | Event.frameAvailAppSegment buf => onFrameAvailableAppSegment s buf
  | Event.frameAvailMain buf => onFrameAvailableMain s buf
  | Event.codecOutput info isGainmap => onHeicOutputFrameAvailable s info isGainmap
  | Event.codecInput idx isGainmap => onHeicInputFrameAvailable s idx isGainmap
  | Event.codecError => onHeicCodecError s
  | Event.resultReceived ts fn => onResultReceived s ts fn
  | Event.resultError fn => onResultError s fn
  | Event.requestError fn => onRequestError s fn
  | Event.streamBufferError isMain fn => onStreamBufferError s isMain fn
  | Event.worker env => threadLoopIteration s env

/-- Run a trace of events from a state. -/
def run (s : StreamState) : List Event → StreamState
  | [] => s
  | e :: rest => run (step s e) rest

/-- An app-segment blob whose trailing `CameraBlob` descriptor declares a
total length of 5 while the parsed APP1 marker length sums to 6: the
trailer-mismatch shape of claim C1.  Layout: `FF E1 00 04` (APP1, length
4), two payload bytes, two padding bytes, then the 8-byte trailer
(`blobId = 0x100`, `blobSizeBytes = 5`). -/
def cxBufC1 : List Nat :=
  [0xFF, 0xE1, 0, 4, 9, 9, 0, 0, 0, 1, 0, 0, 5, 0, 0, 0]

/-- The frame holding `cxBufC1` as its app-segment buffer, ready for
`processAppSegment` (present buffer, result arrived, muxer open). -/
def frameC1 : InputFrame :=
  { appSegmentBuffer := { data := some cxBufC1, width := 16, height := 1
                          timestamp := 100 }
    result := true, muxer := true, trackIndex := 0, timestamp := 100
    requestId := 42, format := true }

/-- A frame on the `exifError` path (minimal-segment write). -/
def frameC1x : InputFrame :=
  { exifError := true, result := true, muxer := true, trackIndex := 0
    timestamp := 100, requestId := 42 }

/-- Pipeline state holding `frameC1` as its only pending frame. -/
def stateC1 : StreamState :=
  { pendingInputFrames := [(1, frameC1)], maxHeicBufferSize := 1000000 }

/-- A frame one drained tile away from completion: muxer open, app
segment written, one attributed compressed output, one pending tile. -/
def fC2w : InputFrame :=
  { muxer := true, trackIndex := 0, appSegmentWritten := true
    pendingOutputTiles := 1, codecOutputBuffers := [⟨0, 0, 5, 0, 0⟩]
    timestamp := 100, anb := true, fileFd := 3, result := true
    format := true }

/-- Stream state with capacity for the finished container. -/
def sC2w : StreamState :=
  { maxHeicBufferSize := 1000000, dequeuedOutputBufferCnt := 1 }

/-- Stream state whose capacity budget is the `initializeCodec` formula
at a 0 x 0 image with a 100-byte app-segment allowance (a 100-byte
budget): any container larger than `100 - sizeof(CameraBlob) = 92`
bytes overruns it.  The budget exceeds the 8-byte blob trailer, so the
model's truncated subtraction coincides with the source's `size_t`
arithmetic here. -/
def sC2cx : StreamState :=
  { maxHeicBufferSize := maxHeicBufferSizeOf 0 0 100
    dequeuedOutputBufferCnt := 1 }

/-- A frame with one attributed compressed output and no muxer yet. -/
def fC3w : InputFrame :=
  { codecOutputBuffers := [⟨0, 0, 5, 0, 0⟩], timestamp := 100
    format := true }

/-- Grid-mode stream configuration used by the C3 resurrection trace. -/
def s0C3 : StreamState :=
  { useGrid := true, gridRows := 1, gridCols := 1, numOutputTiles := 1
    appSegmentSupported := true, maxHeicBufferSize := 1000000
    streamFormat := true }

/-- The C3 resurrection trace: frame 1 is requested and shuttered, its
YUV is submitted to the codec, then the request fails (`onRequestError`)
and the worker evicts the frame — after which a late codec output
re-creates the erased `mPendingInputFrames` entry through `operator[]`
and the next worker pass opens a muxer for the default-constructed
frame. -/
def traceC3 : List Event :=
  [Event.bufferRequest 1 0 95,
   Event.shutter 1 100 42,
   Event.worker (nominalEnv 0),
   Event.bufferReleased true 1 false,
   Event.frameAvailMain { data := some [], timestamp := 100 },
   Event.codecInput 0 false,
   Event.worker (nominalEnv 0),
   Event.requestError 1,
   Event.worker (nominalEnv 0),
   Event.codecOutput ⟨9, 0, 5, 0, 0⟩ false,
   Event.worker (nominalEnv 0)]

/-- A frame released once with its error flag set (C7 counterexample
input). -/
def fC7 : InputFrame := { error := true, requestId := 7 }

/-- Two pending frames: frame 1 has nothing to do yet, frame 2 holds a
compressed output (C5 witness input). -/
def sC5w : StreamState :=
  { pendingInputFrames := [(1, {}), (2, fC3w)] }

/-- No-grid stream configuration for the C5 ordering counterexample. -/
def s0C5 : StreamState :=
  { numOutputTiles := 1, maxHeicBufferSize := 1000000
    streamFormat := true }

/-- The C5 ordering counterexample trace: frames 1 and 2 are both
requested and shuttered, but frame 2's sub-events (main-image release,
YUV buffer, capture result, compressed output) all arrive before frame
1's.  The FIFO attribution queues then attribute the codec output to
frame 2, frame 2 alone becomes ready, and it completes and delivers
before frame 1 does. -/
def traceC5 : List Event :=
  [Event.bufferRequest 1 0 95,
   Event.bufferRequest 2 0 95,
   Event.shutter 1 100 11,
   Event.shutter 2 200 22,
   Event.bufferReleased true 2 false,
   Event.frameAvailMain { data := some [], timestamp := 200 },
   Event.resultReceived 200 2,
   Event.worker (nominalEnv 10),
   Event.codecOutput ⟨0, 0, 5, 0, 0⟩ false,
   Event.worker (nominalEnv 10),
   Event.worker (nominalEnv 10),
   Event.bufferReleased true 1 false,
   Event.frameAvailMain { data := some [], timestamp := 100 },
   Event.resultReceived 100 1,
   Event.codecOutput ⟨1, 0, 5, 0, 0⟩ false,
   Event.worker (nominalEnv 10),
   Event.worker (nominalEnv 10)]

/-!
## Theorems

The claim theorems, their witnesses and counterexamples, together with
the shared helper lemmas they build on.
-/

/-- `(h + t - 1) / t` is the ceiling of `h / t`: characterization used
for the grid rows/cols computation. -/
theorem grid_ceil_spec (h t : Nat) (ht : 0 < t) (hh : 0 < h) :
    h ≤ (h + t - 1) / t * t ∧ ((h + t - 1) / t - 1) * t < h := by
  have hdm := Nat.div_add_mod (h + t - 1) t
  have hmod : (h + t - 1) % t < t := Nat.mod_lt _ ht
  have hcomm : t * ((h + t - 1) / t) = (h + t - 1) / t * t := Nat.mul_comm _ _
  have hsub : ((h + t - 1) / t - 1) * t = (h + t - 1) / t * t - t := by
    rw [Nat.sub_mul, one_mul]
  omega

/-- `feedTiles` on the primary path: with `n` buffers available it adds
`n` tiles carrying the consecutive tile indices starting at the
frame's counter, and advances the counter by `n`. -/
theorem feedTiles_primary_spec (n : Nat) :
    ∀ (f : InputFrame) (bufs : List Int) (ts : Int), n ≤ bufs.length →
    (feedTiles false f bufs ts n).1.codecInputCounter =
        f.codecInputCounter + n ∧
    (feedTiles false f bufs ts n).1.codecInputBuffers.map
        CodecInputBufferInfo.tileIndex =
      f.codecInputBuffers.map CodecInputBufferInfo.tileIndex ++
        List.range' f.codecInputCounter n := by
  induction n with
  | zero => intro f bufs ts _; simp [feedTiles]
  | succ n ih =>
      intro f bufs ts hn
      cases bufs with
      | nil => simp at hn
      | cons b rest =>
          have hr : n ≤ rest.length := by simp at hn; omega
          have hstep : feedTiles false f (b :: rest) ts (n + 1) =
              feedTiles false
                { f with
                  codecInputBuffers := f.codecInputBuffers ++
                    [⟨b, ts, f.codecInputCounter⟩]
                  codecInputCounter := f.codecInputCounter + 1 }
                rest (ts + 1) n := rfl
          have hih := ih
            { f with
              codecInputBuffers := f.codecInputBuffers ++
                [⟨b, ts, f.codecInputCounter⟩]
              codecInputCounter := f.codecInputCounter + 1 }
            rest (ts + 1) hr
          rw [hstep, hih.1, hih.2]
          constructor
          · simp; omega
          · simp [List.range'_succ]

/-- The input-tile distribution loop caps every frame's dispatched-tile
counter at `rows * cols`. -/
theorem distributeLoop_cap (rows cols : Nat) :
    ∀ (m : List (Int × InputFrame)) (bufs : List Int) (ts : Int),
    (∀ kf ∈ m, (kf : Int × InputFrame).2.codecInputCounter ≤ rows * cols) →
    ∀ kf ∈ (distributeLoop false rows cols m bufs ts).1,
      (kf : Int × InputFrame).2.codecInputCounter ≤ rows * cols := by
  intro m
  induction m with
  | nil => intro bufs ts _ kf hkf; simp [distributeLoop] at hkf
  | cons p rest ih =>
      intro bufs ts hall kf hkf
      obtain ⟨k, f⟩ := p
      unfold distributeLoop at hkf
      by_cases hb : bufs.length = 0
      · simp [hb] at hkf
        rcases hkf with hkf | hkf
        · exact hkf ▸ hall _ (by simp)
        · exact hall _ (by simp [hkf])
      · by_cases hc : f.codecInputCounter < rows * cols
        · simp [hb, hc] at hkf
          rcases hkf with hkf | hkf
          · have hmin : min bufs.length (rows * cols - f.codecInputCounter) ≤
                bufs.length := Nat.min_le_left _ _
            have hspec := (feedTiles_primary_spec _ f bufs ts hmin).1
            subst hkf
            simp only [hspec]
            have := Nat.min_le_right bufs.length
              (rows * cols - f.codecInputCounter)
            omega
          · exact hall _ (by simp [hkf])
        · simp [hb, hc] at hkf
          rcases hkf with hkf | hkf
          · exact hkf ▸ hall _ (by simp)
          · exact ih bufs ts (fun q hq => hall _ (by simp [hq])) _ hkf

/-- C6: with grid tiling, `initializeCodec` computes
`ceil(H / tileH)` rows and `ceil(W / tileW)` columns (characterized by
the two inequalities); the distribution loop feeds a fresh frame
exactly `rows * cols` input tiles carrying tile indices
`0 .. rows*cols - 1` (given enough encoder buffers) and never feeds any
frame beyond `rows * cols`; and `processCodecInputFrame` clips
last-column/last-row tiles to `W - tileX * tileW` / `H - tileY * tileH`
instead of the nominal tile size. -/
theorem claim_C6 (wOut hOut : Nat) (useHeic : Bool)
    (hW : 0 < wOut) (hH : 0 < hOut) (cfg : GridConfig)
    (hcfg0 : cfg = initializeCodecGrid wOut hOut true useHeic) :
    (hOut ≤ cfg.gridRows * cfg.gridHeight ∧
      (cfg.gridRows - 1) * cfg.gridHeight < hOut) ∧
    (wOut ≤ cfg.gridCols * cfg.gridWidth ∧
      (cfg.gridCols - 1) * cfg.gridWidth < wOut) ∧
    (∀ (k : Int) (f : InputFrame) (m : List (Int × InputFrame))
        (bufs : List Int) (ts : Int),
      f.codecInputCounter = 0 →
      cfg.gridRows * cfg.gridCols ≤ bufs.length →
      ∃ f',
        (distributeLoop false cfg.gridRows cfg.gridCols ((k, f) :: m) bufs
            ts).1 = (k, f') :: m ∧
        f'.codecInputCounter = cfg.gridRows * cfg.gridCols ∧
        f'.codecInputBuffers.map CodecInputBufferInfo.tileIndex =
          f.codecInputBuffers.map CodecInputBufferInfo.tileIndex ++
            List.range (cfg.gridRows * cfg.gridCols)) ∧
    (∀ (m : List (Int × InputFrame)) (bufs : List Int) (ts : Int),
      (∀ kf ∈ m, (kf : Int × InputFrame).2.codecInputCounter ≤
        cfg.gridRows * cfg.gridCols) →
      ∀ kf ∈ (distributeLoop false cfg.gridRows cfg.gridCols m bufs ts).1,
        (kf : Int × InputFrame).2.codecInputCounter ≤
          cfg.gridRows * cfg.gridCols) ∧
    (∀ t : Nat,
      (t % cfg.gridCols = cfg.gridCols - 1 →
        (tileRect cfg wOut hOut t).2.2.1 =
          wOut - t % cfg.gridCols * cfg.gridWidth) ∧
      (t % cfg.gridCols ≠ cfg.gridCols - 1 →
        (tileRect cfg wOut hOut t).2.2.1 = cfg.gridWidth) ∧
      (t / cfg.gridCols = cfg.gridRows - 1 →
        (tileRect cfg wOut hOut t).2.2.2 =
          hOut - t / cfg.gridCols * cfg.gridHeight) ∧
      (t / cfg.gridCols ≠ cfg.gridRows - 1 →
        (tileRect cfg wOut hOut t).2.2.2 = cfg.gridHeight)) := by
  have hcfg : cfg = ⟨kGridWidth, kGridHeight,
      (hOut + kGridHeight - 1) / kGridHeight,
      (wOut + kGridWidth - 1) / kGridWidth⟩ := by
    rw [hcfg0]
    simp [initializeCodecGrid]
  have hrowc : cfg.gridRows = (hOut + kGridHeight - 1) / kGridHeight := by
    rw [hcfg]
  have hcolc : cfg.gridCols = (wOut + kGridWidth - 1) / kGridWidth := by
    rw [hcfg]
  have hkH : kGridHeight = 512 := rfl
  have hkW : kGridWidth = 512 := rfl
  have hrow : 0 < cfg.gridRows := by
    rw [hrowc, hkH]
    exact Nat.div_pos (by omega) (by omega)
  have hcol : 0 < cfg.gridCols := by
    rw [hcolc, hkW]
    exact Nat.div_pos (by omega) (by omega)
  refine ⟨?_, ?_, ?_, ?_, ?_⟩
  · rw [hcfg]
    exact grid_ceil_spec hOut kGridHeight (by decide) hH
  · rw [hcfg]
    exact grid_ceil_spec wOut kGridWidth (by decide) hW
  · intro k f m bufs ts hzero hlen
    have hpos : 0 < cfg.gridRows * cfg.gridCols := Nat.mul_pos hrow hcol
    have hb : ¬ bufs.length = 0 := by omega
    have hc : f.codecInputCounter < cfg.gridRows * cfg.gridCols := by omega
    have hmin : min bufs.length
        (cfg.gridRows * cfg.gridCols - f.codecInputCounter) =
        cfg.gridRows * cfg.gridCols := by omega
    have hspec := feedTiles_primary_spec
      (min bufs.length (cfg.gridRows * cfg.gridCols - f.codecInputCounter))
      f bufs ts (Nat.min_le_left _ _)
    unfold distributeLoop
    simp only [hb, if_false, hc, if_true, Bool.false_eq_true]
    refine ⟨_, rfl, ?_, ?_⟩
    · rw [hspec.1, hmin, hzero, Nat.zero_add]
    · rw [hspec.2, hmin, hzero, List.range_eq_range']
  · exact distributeLoop_cap _ _
  · intro t
    refine ⟨?_, ?_, ?_, ?_⟩ <;> intro ht <;> simp [tileRect, ht]

/-- Witness for C6 at a 1000 x 700 image (a 2 x 2 grid of 512-tiles). -/
theorem claim_C6_witness :
    (0 < 1000 ∧ 0 < 700) ∧
    ((700 ≤ (initializeCodecGrid 1000 700 true false).gridRows *
        (initializeCodecGrid 1000 700 true false).gridHeight ∧
      ((initializeCodecGrid 1000 700 true false).gridRows - 1) *
        (initializeCodecGrid 1000 700 true false).gridHeight < 700) ∧
     (1000 ≤ (initializeCodecGrid 1000 700 true false).gridCols *
        (initializeCodecGrid 1000 700 true false).gridWidth ∧
      ((initializeCodecGrid 1000 700 true false).gridCols - 1) *
        (initializeCodecGrid 1000 700 true false).gridWidth < 1000)) ∧
    (∃ f',
      (distributeLoop false (initializeCodecGrid 1000 700 true false).gridRows
          (initializeCodecGrid 1000 700 true false).gridCols [(1, {})]
          [10, 11, 12, 13] 0).1 = [(1, f')] ∧
      f'.codecInputCounter =
        (initializeCodecGrid 1000 700 true false).gridRows *
          (initializeCodecGrid 1000 700 true false).gridCols ∧
      f'.codecInputBuffers.map CodecInputBufferInfo.tileIndex =
        ({} : InputFrame).codecInputBuffers.map CodecInputBufferInfo.tileIndex
          ++ List.range ((initializeCodecGrid 1000 700 true false).gridRows *
            (initializeCodecGrid 1000 700 true false).gridCols)) ∧
    ((tileRect (initializeCodecGrid 1000 700 true false) 1000 700 3).2.2.1 =
        1000 - 3 % (initializeCodecGrid 1000 700 true false).gridCols *
          (initializeCodecGrid 1000 700 true false).gridWidth ∧
      (tileRect (initializeCodecGrid 1000 700 true false) 1000 700 3).2.2.2 =
        700 - 3 / (initializeCodecGrid 1000 700 true false).gridCols *
          (initializeCodecGrid 1000 700 true false).gridHeight) := by
  have h := claim_C6 1000 700 false (by decide) (by decide)
    (initializeCodecGrid 1000 700 true false) rfl
  refine ⟨⟨by decide, by decide⟩, ⟨h.1, h.2.1⟩, ?_, ?_, ?_⟩
  · exact h.2.2.1 1 {} [] [10, 11, 12, 13] 0 rfl (by decide)
  · exact (h.2.2.2.2 3).1 (by decide)
  · exact (h.2.2.2.2 3).2.2.1 (by decide)

/-- `startMuxerForInputFrame` never queues anything to the sink. -/
theorem startMuxer_delivered (s : StreamState) (f : InputFrame)
    (env : ProcessEnv) :
    (startMuxerForInputFrame s f env).2.1.delivered = s.delivered := by
  unfold startMuxerForInputFrame
  split_ifs <;> try rfl
  all_goals try simp
  all_goals (split <;> simp)

/-- `processAppSegment` neither delivers nor touches the pending tile
counters. -/
theorem processAppSegment_effects (s : StreamState) (f : InputFrame)
    (env : ProcessEnv) :
    (processAppSegment s f env).2.1.delivered = s.delivered ∧
    (processAppSegment s f env).2.2.pendingOutputTiles =
      f.pendingOutputTiles ∧
    (processAppSegment s f env).2.2.gainmapPendingOutputTiles =
      f.gainmapPendingOutputTiles := by
  unfold processAppSegment
  dsimp only
  cases hp : (if !f.exifError then
      findAppSegmentsSize (f.appSegmentBuffer.data.getD [])
        (f.appSegmentBuffer.width * f.appSegmentBuffer.height)
    else some (0, 0)) with
  | none => simp [hp]
  | some v =>
      obtain ⟨a, b⟩ := v
      split_ifs <;> simp

/-- `processOneCodecOutputFrame` only ever decreases the primary
pending counter, preserves the rest and never delivers. -/
theorem processOneCodecOutputFrame_effects (s : StreamState)
    (f : InputFrame) (env : ProcessEnv) :
    (processOneCodecOutputFrame s f env).2.1.delivered = s.delivered ∧
    (processOneCodecOutputFrame s f env).2.2.pendingOutputTiles ≤
      f.pendingOutputTiles ∧
    (processOneCodecOutputFrame s f env).2.2.gainmapPendingOutputTiles =
      f.gainmapPendingOutputTiles ∧
    (processOneCodecOutputFrame s f env).2.2.appSegmentWritten =
      f.appSegmentWritten := by
  unfold processOneCodecOutputFrame
  split
  · simp
  · split_ifs <;> simp

/-- Gainmap analogue. -/
theorem processOneCodecGainmapOutputFrame_effects (s : StreamState)
    (f : InputFrame) (env : ProcessEnv) :
    (processOneCodecGainmapOutputFrame s f env).2.1.delivered =
      s.delivered ∧
    (processOneCodecGainmapOutputFrame s f env).2.2.pendingOutputTiles =
      f.pendingOutputTiles ∧
    (processOneCodecGainmapOutputFrame s f env).2.2.gainmapPendingOutputTiles
      ≤ f.gainmapPendingOutputTiles ∧
    (processOneCodecGainmapOutputFrame s f env).2.2.appSegmentWritten =
      f.appSegmentWritten := by
  unfold processOneCodecGainmapOutputFrame
  split
  · simp
  · split_ifs <;> simp

/-- The primary drain loop: no delivery, the primary counter does not
increase, and the gainmap counter and segment-written flag are
untouched. -/
theorem drainCodecOutputsGo_effects (env : ProcessEnv)
    (l : List CodecOutputBufferInfo) :
    ∀ (s : StreamState) (f : InputFrame),
    (drainCodecOutputsGo s f env l).2.1.delivered = s.delivered ∧
    (drainCodecOutputsGo s f env l).2.2.pendingOutputTiles ≤
      f.pendingOutputTiles ∧
    (drainCodecOutputsGo s f env l).2.2.gainmapPendingOutputTiles =
      f.gainmapPendingOutputTiles ∧
    (drainCodecOutputsGo s f env l).2.2.appSegmentWritten =
      f.appSegmentWritten := by
  induction l with
  | nil => intro s f; simp [drainCodecOutputsGo]
  | cons b rest ih =>
      intro s f
      unfold drainCodecOutputsGo
      have hone := processOneCodecOutputFrame_effects s f env
      cases hr : processOneCodecOutputFrame s f env with
      | mk st p =>
          obtain ⟨s', f'⟩ := p
          rw [hr] at hone
          cases st <;> simp only []
          case ok =>
            have hrec := ih s' f'
            exact ⟨hrec.1.trans hone.1, le_trans hrec.2.1 hone.2.1,
              hrec.2.2.1.trans hone.2.2.1, hrec.2.2.2.trans hone.2.2.2⟩
          all_goals exact ⟨hone.1, hone.2.1, hone.2.2.1, hone.2.2.2⟩

/-- The gainmap drain loop: symmetric effects. -/
theorem drainGainmapCodecOutputsGo_effects (env : ProcessEnv)
    (l : List CodecOutputBufferInfo) :
    ∀ (s : StreamState) (f : InputFrame),
    (drainGainmapCodecOutputsGo s f env l).2.1.delivered = s.delivered ∧
    (drainGainmapCodecOutputsGo s f env l).2.2.pendingOutputTiles =
      f.pendingOutputTiles ∧
    (drainGainmapCodecOutputsGo s f env l).2.2.gainmapPendingOutputTiles ≤
      f.gainmapPendingOutputTiles ∧
    (drainGainmapCodecOutputsGo s f env l).2.2.appSegmentWritten =
      f.appSegmentWritten := by
  induction l with
  | nil => intro s f; simp [drainGainmapCodecOutputsGo]
  | cons b rest ih =>
      intro s f
      unfold drainGainmapCodecOutputsGo
      have hone := processOneCodecGainmapOutputFrame_effects s f env
      cases hr : processOneCodecGainmapOutputFrame s f env with
      | mk st p =>
          obtain ⟨s', f'⟩ := p
          rw [hr] at hone
          cases st <;> simp only []
          case ok =>
            have hrec := ih s' f'
            exact ⟨hrec.1.trans hone.1, hrec.2.1.trans hone.2.1,
              le_trans hrec.2.2.1 hone.2.2.1, hrec.2.2.2.trans hone.2.2.2⟩
          all_goals exact ⟨hone.1, hone.2.1, hone.2.2.1, hone.2.2.2⟩

/-- `processCompletedInputFrame`: the sink is handed exactly this frame
number precisely when it returns `OK`; it preserves the pending
counters and the segment-written flag. -/
theorem processCompletedInputFrame_effects (s : StreamState)
    (frameNumber : Int) (f : InputFrame) (env : ProcessEnv) :
    (((processCompletedInputFrame s frameNumber f env).1 = Status.ok ∧
        (processCompletedInputFrame s frameNumber f env).2.1.delivered =
          s.delivered ++ [frameNumber]) ∨
      ((processCompletedInputFrame s frameNumber f env).1 ≠ Status.ok ∧
        (processCompletedInputFrame s frameNumber f env).2.1.delivered =
          s.delivered)) ∧
    (processCompletedInputFrame s frameNumber f env).2.2.pendingOutputTiles =
      f.pendingOutputTiles ∧
    (processCompletedInputFrame s frameNumber
        f env).2.2.gainmapPendingOutputTiles =
      f.gainmapPendingOutputTiles ∧
    (processCompletedInputFrame s frameNumber f env).2.2.appSegmentWritten =
      f.appSegmentWritten := by
  unfold processCompletedInputFrame
  split_ifs <;> try simp
  all_goals split_ifs <;> simp

/-- `generateBaseImageAndGainmap` leaves the muxer/tile bookkeeping
fields untouched. -/
theorem generateBaseImageAndGainmap_preserves (f : InputFrame)
    (env : ProcessEnv) :
    (generateBaseImageAndGainmap f env).2.pendingOutputTiles =
      f.pendingOutputTiles ∧
    (generateBaseImageAndGainmap f env).2.gainmapPendingOutputTiles =
      f.gainmapPendingOutputTiles ∧
    (generateBaseImageAndGainmap f env).2.muxer = f.muxer ∧
    (generateBaseImageAndGainmap f env).2.appSegmentWritten =
      f.appSegmentWritten ∧
    (generateBaseImageAndGainmap f env).2.codecOutputBuffers =
      f.codecOutputBuffers ∧
    (generateBaseImageAndGainmap f env).2.gainmapCodecOutputBuffers =
      f.gainmapCodecOutputBuffers := by
  unfold generateBaseImageAndGainmap
  split_ifs <;> simp

/-- `processCodecInputFrame` only clears the input-tile list. -/
theorem processCodecInputFrame_preserves (s : StreamState) (f : InputFrame)
    (env : ProcessEnv) :
    (processCodecInputFrame s f env).2.pendingOutputTiles =
      f.pendingOutputTiles ∧
    (processCodecInputFrame s f env).2.gainmapPendingOutputTiles =
      f.gainmapPendingOutputTiles ∧
    (processCodecInputFrame s f env).2.muxer = f.muxer ∧
    (processCodecInputFrame s f env).2.appSegmentWritten =
      f.appSegmentWritten ∧
    (processCodecInputFrame s f env).2.codecOutputBuffers =
      f.codecOutputBuffers ∧
    (processCodecInputFrame s f env).2.gainmapCodecOutputBuffers =
      f.gainmapCodecOutputBuffers := by
  unfold processCodecInputFrame
  split_ifs <;> simp

/-- `processCodecGainmapInputFrame` only clears the gainmap input-tile
list. -/
theorem processCodecGainmapInputFrame_preserves (s : StreamState)
    (f : InputFrame) (env : ProcessEnv) :
    (processCodecGainmapInputFrame s f env).2.pendingOutputTiles =
      f.pendingOutputTiles ∧
    (processCodecGainmapInputFrame s f env).2.gainmapPendingOutputTiles =
      f.gainmapPendingOutputTiles ∧
    (processCodecGainmapInputFrame s f env).2.muxer = f.muxer ∧
    (processCodecGainmapInputFrame s f env).2.appSegmentWritten =
      f.appSegmentWritten ∧
    (processCodecGainmapInputFrame s f env).2.codecOutputBuffers =
      f.codecOutputBuffers ∧
    (processCodecGainmapInputFrame s f env).2.gainmapCodecOutputBuffers =
      f.gainmapCodecOutputBuffers := by
  unfold processCodecGainmapInputFrame
  split_ifs <;> simp

/-- C10: an encoder output callback whose buffer has size 0 or carries
the codec-config flag releases the buffer back to the codec
immediately and leaves every other component of the shared pipeline
state unchanged; in particular it is never appended to the pending
codec-output queues. -/
theorem claim_C10 (s : StreamState) (info : CodecOutputBufferInfo)
    (isGainmap : Bool)
    (h : info.size = 0 ∨ info.flags &&& bufferFlagCodecConfig ≠ 0) :
    onHeicOutputFrameAvailable s info isGainmap =
      (if isGainmap then
        { s with releasedGainmapCodecOutputIndices :=
            s.releasedGainmapCodecOutputIndices ++ [info.index] }
      else
        { s with releasedCodecOutputIndices :=
            s.releasedCodecOutputIndices ++ [info.index] }) := by
  have hc : (info.size > 0 && (info.flags &&& bufferFlagCodecConfig) = 0) = false := by
    rcases h with h | h <;> simp [h]
  unfold onHeicOutputFrameAvailable
  cases hs : s.errorState <;> cases isGainmap <;> simp [hc]

/-- Witness for C10 at a size-0 buffer. -/
theorem claim_C10_witness :
    ((⟨5, 0, 0, 0, 0⟩ : CodecOutputBufferInfo).size = 0 ∨
      (⟨5, 0, 0, 0, 0⟩ : CodecOutputBufferInfo).flags &&&
        bufferFlagCodecConfig ≠ 0) ∧
    onHeicOutputFrameAvailable {} ⟨5, 0, 0, 0, 0⟩ false =
      (if false then
        { ({} : StreamState) with releasedGainmapCodecOutputIndices :=
            ({} : StreamState).releasedGainmapCodecOutputIndices ++ [5] }
      else
        { ({} : StreamState) with releasedCodecOutputIndices :=
            ({} : StreamState).releasedCodecOutputIndices ++ [5] }) :=
  ⟨Or.inl rfl, claim_C10 {} ⟨5, 0, 0, 0, 0⟩ false (Or.inl rfl)⟩

/-- C9: when the HDR gainmap path is active, the gainmap metadata
sample carries the fractional ISO gainmap blob with leading version
byte 0 (after the tmap transport marker), and every compressed gainmap
tile sample is prefixed with the marker bytes g m a p 0 0. -/
theorem claim_C9 (f : InputFrame) (env : ProcessEnv) (s s' : StreamState)
    (f2 : InputFrame) :
    ((generateBaseImageAndGainmap f env).1 = Status.ok →
      (gainmapMetadataSample (generateBaseImageAndGainmap f env).2).bytes =
        kGainmapMetaMarker ++ 0 :: env.encodedGainmapMetadata) ∧
    (processOneCodecGainmapOutputFrame s f env = (Status.ok, s', f2) →
      ∀ smp ∈ f2.muxerSamples,
        smp ∈ f.muxerSamples ∨ smp.bytes.take 6 = kGainmapMarker) := by
  constructor
  · intro hok
    unfold generateBaseImageAndGainmap at hok ⊢
    cases ht : env.tonemapOk <;> simp [ht] at hok ⊢
    cases hg : env.generateGainMapOk <;> simp [hg] at hok ⊢
    cases hm : env.metadataToFractionsOk <;> simp [hm] at hok ⊢
    cases he : env.encodeGainmapMetadataOk <;> simp [he] at hok ⊢
    simp [gainmapMetadataSample]
  · intro hok smp hmem
    unfold processOneCodecGainmapOutputFrame at hok
    cases hb : f.gainmapCodecOutputBuffers with
    | nil =>
        rw [hb] at hok
        simp at hok
        left
        rw [hok.2]
        exact hmem
    | cons it rest =>
        rw [hb] at hok
        simp at hok
        split at hok
        · simp at hok
        · split at hok
          · simp at hok
          · simp at hok
            rw [← hok.2] at hmem
            simp at hmem
            rcases hmem with hmem | hmem
            · exact Or.inl hmem
            · right
              rw [hmem]
              simp
              have h6 : 6 = kGainmapMarker.length := by decide
              rw [h6, List.take_left]

/-- Witness for C9 at one compressed gainmap output buffer. -/
theorem claim_C9_witness :
    (generateBaseImageAndGainmap {} {} = (Status.ok,
        (generateBaseImageAndGainmap {} {}).2) →
      (gainmapMetadataSample (generateBaseImageAndGainmap {} {}).2).bytes =
        kGainmapMetaMarker ++ 0 :: ({} : ProcessEnv).encodedGainmapMetadata) ∧
    (∀ smp ∈ (processOneCodecGainmapOutputFrame {}
        { gainmapCodecOutputBuffers := [⟨2, 0, 4, 0, 0⟩] } {}).2.2.muxerSamples,
      smp ∈ ({ gainmapCodecOutputBuffers := [⟨2, 0, 4, 0, 0⟩] } :
          InputFrame).muxerSamples ∨ smp.bytes.take 6 = kGainmapMarker) := by
  constructor
  · intro h
    exact (claim_C9 {} {} {} {} default).1 (by rw [h])
  · intro smp hmem
    exact (claim_C9 { gainmapCodecOutputBuffers := [⟨2, 0, 4, 0, 0⟩] } {} {}
      (processOneCodecGainmapOutputFrame {}
        { gainmapCodecOutputBuffers := [⟨2, 0, 4, 0, 0⟩] } {}).2.1
      (processOneCodecGainmapOutputFrame {}
        { gainmapCodecOutputBuffers := [⟨2, 0, 4, 0, 0⟩] } {}).2.2).2
      (by decide) smp hmem

/-- C8: when the muxed container exceeds the capacity budget
(tile-aligned width times tile-aligned height times 3/2 plus the
app-segment allowance, less the fixed blob trailer),
`processCompletedInputFrame` fails (with `BAD_VALUE` when the output
buffer lock itself succeeded) and nothing is queued to the output
sink. -/
theorem claim_C8 (s : StreamState) (frameNumber : Int) (f : InputFrame)
    (env : ProcessEnv) (wOut hOut allowance : Nat)
    (hbudget : s.maxHeicBufferSize = maxHeicBufferSizeOf wOut hOut allowance)
    (hover : env.muxedFileSize >
      maxHeicBufferSizeOf wOut hOut allowance - sizeofCameraBlob) :
    (env.lockOutputBufferOk = true →
      (processCompletedInputFrame s frameNumber f env).1 = Status.badValue) ∧
    (processCompletedInputFrame s frameNumber f env).1 ≠ Status.ok ∧
    (processCompletedInputFrame s frameNumber f env).2.1.delivered =
      s.delivered := by
  have hcap : env.muxedFileSize > s.maxHeicBufferSize - sizeofCameraBlob := by
    rw [hbudget]; exact hover
  unfold processCompletedInputFrame
  cases hl : env.lockOutputBufferOk <;>
    simp [hl, hcap, Nat.not_le.mpr hcap]

/-- Witness for C8: a 100-byte budget with a 200-byte container. -/
theorem claim_C8_witness :
    ({ maxHeicBufferSize := maxHeicBufferSizeOf 0 0 100 } :
        StreamState).maxHeicBufferSize = maxHeicBufferSizeOf 0 0 100 ∧
    (nominalEnv 200).muxedFileSize >
      maxHeicBufferSizeOf 0 0 100 - sizeofCameraBlob ∧
    ((nominalEnv 200).lockOutputBufferOk = true →
      (processCompletedInputFrame { maxHeicBufferSize := maxHeicBufferSizeOf 0 0 100 }
        1 {} (nominalEnv 200)).1 = Status.badValue) ∧
    (processCompletedInputFrame { maxHeicBufferSize := maxHeicBufferSizeOf 0 0 100 }
        1 {} (nominalEnv 200)).1 ≠ Status.ok ∧
    (processCompletedInputFrame { maxHeicBufferSize := maxHeicBufferSizeOf 0 0 100 }
        1 {} (nominalEnv 200)).2.1.delivered =
      ({ maxHeicBufferSize := maxHeicBufferSizeOf 0 0 100 } :
        StreamState).delivered :=
  ⟨rfl, by decide,
    (claim_C8 _ 1 {} (nominalEnv 200) 0 0 100 rfl (by decide)).1,
    (claim_C8 _ 1 {} (nominalEnv 200) 0 0 100 rfl (by decide)).2.1,
    (claim_C8 _ 1 {} (nominalEnv 200) 0 0 100 rfl (by decide)).2.2⟩


/-- Master characterization of `processInputFrame` (source lines 1073-1208):
either the frame is still pending (delivered log unchanged), or it was
completed and appended to the delivered log with status ok, zero pending
tiles and the app segment written; and when the muxer was already open on
entry, the pending tile counters never increase. -/
theorem processInputFrame_effects (s : StreamState) (fn : Int)
    (f : InputFrame) (env : ProcessEnv)
    (r : Status × StreamState × InputFrame)
    (hr : processInputFrame s fn f env = r) :
    (r.2.1.delivered = s.delivered ∨
      (r.2.1.delivered = s.delivered ++ [fn] ∧ r.1 = Status.ok ∧
        r.2.2.pendingOutputTiles = 0 ∧
        r.2.2.gainmapPendingOutputTiles = 0 ∧
        r.2.2.appSegmentWritten = true)) ∧
    (f.muxer = true →
      r.2.2.pendingOutputTiles ≤ f.pendingOutputTiles ∧
      r.2.2.gainmapPendingOutputTiles ≤ f.gainmapPendingOutputTiles) := by
  unfold processInputFrame at hr
  dsimp only at hr
  rcases hS1 : (if codecInputReadyOf f = true then
      if (s.hdrGainmapEnabled && !f.baseBuffer) = true then
        match generateBaseImageAndGainmap f env with
        | (Status.ok, f) => processCodecInputFrame s f env
        | r => r
      else processCodecInputFrame s f env
    else (Status.ok, f)) with ⟨st1, f1⟩
  rw [hS1] at hr
  have hp1 : f1.pendingOutputTiles = f.pendingOutputTiles ∧
      f1.gainmapPendingOutputTiles = f.gainmapPendingOutputTiles ∧
      f1.muxer = f.muxer := by
    split_ifs at hS1
    · cases hgen : generateBaseImageAndGainmap f env with
      | mk stg fg =>
          have hg := generateBaseImageAndGainmap_preserves f env
          rw [hgen] at hS1 hg
          cases stg
          · have hp := processCodecInputFrame_preserves s fg env
            rw [show (match ((Status.ok, fg) : Status × InputFrame) with
              | (Status.ok, f) => processCodecInputFrame s f env
              | r => r) = processCodecInputFrame s fg env from rfl] at hS1
            rw [hS1] at hp
            simp at hp hg
            exact ⟨hp.1.trans hg.1, hp.2.1.trans hg.2.1, hp.2.2.1.trans hg.2.2.1⟩
          all_goals
            simp at hS1 hg
            rw [← hS1.2]
            exact ⟨hg.1, hg.2.1, hg.2.2.1⟩
    · have hp := processCodecInputFrame_preserves s f env
      rw [hS1] at hp
      simp at hp
      exact ⟨hp.1, hp.2.1, hp.2.2.1⟩
    · cases hS1
      exact ⟨rfl, rfl, rfl⟩
  cases st1
  · dsimp only at hr
    rcases hS2 : (if gainmapCodecInputReadyOf f = true then
        processCodecGainmapInputFrame s f1 env
      else (Status.ok, f1)) with ⟨st2, f2⟩
    rw [hS2] at hr
    have hp2 : f2.pendingOutputTiles = f1.pendingOutputTiles ∧
        f2.gainmapPendingOutputTiles = f1.gainmapPendingOutputTiles ∧
        f2.muxer = f1.muxer := by
      split_ifs at hS2
      · have hp := processCodecGainmapInputFrame_preserves s f1 env
        rw [hS2] at hp
        simp at hp
        exact ⟨hp.1, hp.2.1, hp.2.2.1⟩
      · cases hS2
        exact ⟨rfl, rfl, rfl⟩
    cases st2
    · dsimp only at hr
      by_cases hgate : (!(codecOutputReadyOf f &&
          hasOutputBufferOf s.dequeuedOutputBufferCnt f) &&
          !appSegmentReadyOf f) = true
      · rw [if_pos hgate] at hr
        cases hr
        exact ⟨Or.inl rfl, fun _ =>
          ⟨le_of_eq (hp2.1.trans hp1.1), le_of_eq (hp2.2.1.trans hp1.2.1)⟩⟩
      · rw [if_neg hgate] at hr
        rcases hS3 : (if (!f2.muxer) = true then startMuxerForInputFrame s f2 env
          else (Status.ok, s, f2)) with ⟨st3, s3, f3⟩
        rw [hS3] at hr
        have hd3 : s3.delivered = s.delivered := by
          split_ifs at hS3
          · have := startMuxer_delivered s f2 env
            rw [hS3] at this
            exact this
          · cases hS3
            rfl
        have hm3 : f.muxer = true → s3 = s ∧ f3 = f2 := by
          intro hm
          have hmx : f2.muxer = true := hp2.2.2.trans (hp1.2.2.trans hm)
          split_ifs at hS3 with hcond
          · rw [hmx] at hcond
            simp at hcond
          · cases hS3
            exact ⟨rfl, rfl⟩
        cases st3
        · dsimp only at hr
          rcases hS4 : (if (!f.isoGainmapMetadata.isEmpty) = true then
              if (!env.writeSampleOk) = true then (Status.unknownError, s3, f3)
              else (Status.ok, s3,
                { f3 with isoGainmapMetadata := ([] : List Nat)
                          muxerSamples := f3.muxerSamples ++ [gainmapMetadataSample f3] })
            else (Status.ok, s3, f3)) with ⟨st4, s4, f4⟩
          rw [hS4] at hr
          have hp4 : s4 = s3 ∧ f4.pendingOutputTiles = f3.pendingOutputTiles ∧
              f4.gainmapPendingOutputTiles = f3.gainmapPendingOutputTiles ∧
              f4.appSegmentWritten = f3.appSegmentWritten := by
            split_ifs at hS4 <;> cases hS4 <;> simp
          cases st4
          · dsimp only at hr
            rcases hS5 : (if appSegmentReadyOf f = true then processAppSegment s4 f4 env
              else (Status.ok, s4, f4)) with ⟨st5, s5, f5⟩
            rw [hS5] at hr
            have hp5 : s5.delivered = s4.delivered ∧
                f5.pendingOutputTiles = f4.pendingOutputTiles ∧
                f5.gainmapPendingOutputTiles = f4.gainmapPendingOutputTiles := by
              split_ifs at hS5
              · have := processAppSegment_effects s4 f4 env
                rw [hS5] at this
                exact this
              · cases hS5
                exact ⟨rfl, rfl, rfl⟩
            cases st5
            · dsimp only at hr
              rcases hS6 : drainCodecOutputs s5 f5 env with ⟨st6, s6, f6⟩
              rw [hS6] at hr
              have hp6 : s6.delivered = s5.delivered ∧
                  f6.pendingOutputTiles ≤ f5.pendingOutputTiles ∧
                  f6.gainmapPendingOutputTiles = f5.gainmapPendingOutputTiles ∧
                  f6.appSegmentWritten = f5.appSegmentWritten := by
                have := drainCodecOutputsGo_effects env f5.codecOutputBuffers s5 f5
                rw [show drainCodecOutputsGo s5 f5 env f5.codecOutputBuffers =
                  drainCodecOutputs s5 f5 env from rfl, hS6] at this
                exact this
              cases st6
              · dsimp only at hr
                rcases hS7 : drainGainmapCodecOutputs s6 f6 env with ⟨st7, s7, f7⟩
                rw [hS7] at hr
                have hp7 : s7.delivered = s6.delivered ∧
                    f7.pendingOutputTiles = f6.pendingOutputTiles ∧
                    f7.gainmapPendingOutputTiles ≤ f6.gainmapPendingOutputTiles ∧
                    f7.appSegmentWritten = f6.appSegmentWritten := by
                  have := drainGainmapCodecOutputsGo_effects env f6.gainmapCodecOutputBuffers s6 f6
                  rw [show drainGainmapCodecOutputsGo s6 f6 env f6.gainmapCodecOutputBuffers =
                    drainGainmapCodecOutputs s6 f6 env from rfl, hS7] at this
                  exact this
                have hdel7 : s7.delivered = s.delivered :=
                  hp7.1.trans (hp6.1.trans (hp5.1.trans (hp4.1 ▸ hd3)))
                have hmon7 : f.muxer = true →
                    f7.pendingOutputTiles ≤ f.pendingOutputTiles ∧
                    f7.gainmapPendingOutputTiles ≤ f.gainmapPendingOutputTiles := by
                  intro hm
                  obtain ⟨-, hf32⟩ := hm3 hm
                  constructor
                  · calc f7.pendingOutputTiles = f6.pendingOutputTiles := hp7.2.1
                      _ ≤ f5.pendingOutputTiles := hp6.2.1
                      _ = f.pendingOutputTiles := by
                        rw [hp5.2.1, hp4.2.1, hf32, hp2.1, hp1.1]
                  · calc f7.gainmapPendingOutputTiles ≤ f6.gainmapPendingOutputTiles :=
                        hp7.2.2.1
                      _ = f5.gainmapPendingOutputTiles := hp6.2.2.1
                      _ = f.gainmapPendingOutputTiles := by
                        rw [hp5.2.2, hp4.2.2.1, hf32, hp2.2.1, hp1.2.1]
                cases st7
                · dsimp only at hr
                  by_cases hc1 : (decide (f7.pendingOutputTiles = 0) &&
                      decide (f7.gainmapPendingOutputTiles = 0)) = true
                  · rw [if_pos hc1] at hr
                    by_cases hc2 : f7.appSegmentWritten = true
                    · rw [if_pos hc2] at hr
                      have hcomp := processCompletedInputFrame_effects s7 fn f7 env
                      rw [hr] at hcomp
                      simp at hc1
                      rcases hcomp.1 with ⟨hok, hdel⟩ | ⟨hnok, hdel⟩
                      · refine ⟨Or.inr ⟨hdel.trans (by rw [hdel7]), hok, ?_, ?_, ?_⟩, ?_⟩
                        · rw [hcomp.2.1, hc1.1]
                        · rw [hcomp.2.2.1, hc1.2]
                        · rw [hcomp.2.2.2, hc2]
                        · intro hm
                          rw [hcomp.2.1, hcomp.2.2.1]
                          exact hmon7 hm
                      · refine ⟨Or.inl (hdel.trans hdel7), fun hm => ?_⟩
                        rw [hcomp.2.1, hcomp.2.2.1]
                        exact hmon7 hm
                    · rw [if_neg hc2] at hr
                      cases hr
                      exact ⟨Or.inl hdel7, hmon7⟩
                  · rw [if_neg hc1] at hr
                    cases hr
                    exact ⟨Or.inl hdel7, hmon7⟩
                · dsimp only at hr
                  cases hr
                  exact ⟨Or.inl hdel7, hmon7⟩
                · dsimp only at hr
                  cases hr
                  exact ⟨Or.inl hdel7, hmon7⟩
                · dsimp only at hr
                  cases hr
                  exact ⟨Or.inl hdel7, hmon7⟩
                · dsimp only at hr
                  cases hr
                  exact ⟨Or.inl hdel7, hmon7⟩
              · dsimp only at hr
                cases hr
                refine ⟨Or.inl (hp6.1.trans (hp5.1.trans (hp4.1 ▸ hd3))), fun hm => ?_⟩
                obtain ⟨-, hf32⟩ := hm3 hm
                constructor
                · calc f6.pendingOutputTiles ≤ f5.pendingOutputTiles := hp6.2.1
                    _ = f.pendingOutputTiles := by
                      rw [hp5.2.1, hp4.2.1, hf32, hp2.1, hp1.1]
                · have h62 : f6.gainmapPendingOutputTiles = f.gainmapPendingOutputTiles := by
                    rw [hp6.2.2.1, hp5.2.2, hp4.2.2.1, hf32, hp2.2.1, hp1.2.1]
                  exact le_of_eq h62
              · dsimp only at hr
                cases hr
                refine ⟨Or.inl (hp6.1.trans (hp5.1.trans (hp4.1 ▸ hd3))), fun hm => ?_⟩
                obtain ⟨-, hf32⟩ := hm3 hm
                constructor
                · calc f6.pendingOutputTiles ≤ f5.pendingOutputTiles := hp6.2.1
                    _ = f.pendingOutputTiles := by
                      rw [hp5.2.1, hp4.2.1, hf32, hp2.1, hp1.1]
                · have h62 : f6.gainmapPendingOutputTiles = f.gainmapPendingOutputTiles := by
                    rw [hp6.2.2.1, hp5.2.2, hp4.2.2.1, hf32, hp2.2.1, hp1.2.1]
                  exact le_of_eq h62
              · dsimp only at hr
                cases hr
                refine ⟨Or.inl (hp6.1.trans (hp5.1.trans (hp4.1 ▸ hd3))), fun hm => ?_⟩
                obtain ⟨-, hf32⟩ := hm3 hm
                constructor
                · calc f6.pendingOutputTiles ≤ f5.pendingOutputTiles := hp6.2.1
                    _ = f.pendingOutputTiles := by
                      rw [hp5.2.1, hp4.2.1, hf32, hp2.1, hp1.1]
                · have h62 : f6.gainmapPendingOutputTiles = f.gainmapPendingOutputTiles := by
                    rw [hp6.2.2.1, hp5.2.2, hp4.2.2.1, hf32, hp2.2.1, hp1.2.1]
                  exact le_of_eq h62
              · dsimp only at hr
                cases hr
                refine ⟨Or.inl (hp6.1.trans (hp5.1.trans (hp4.1 ▸ hd3))), fun hm => ?_⟩
                obtain ⟨-, hf32⟩ := hm3 hm
                constructor
                · calc f6.pendingOutputTiles ≤ f5.pendingOutputTiles := hp6.2.1
                    _ = f.pendingOutputTiles := by
                      rw [hp5.2.1, hp4.2.1, hf32, hp2.1, hp1.1]
                · have h62 : f6.gainmapPendingOutputTiles = f.gainmapPendingOutputTiles := by
                    rw [hp6.2.2.1, hp5.2.2, hp4.2.2.1, hf32, hp2.2.1, hp1.2.1]
                  exact le_of_eq h62
            · dsimp only at hr
              cases hr
              refine ⟨Or.inl (hp5.1.trans (hp4.1 ▸ hd3)), fun hm => ?_⟩
              obtain ⟨-, hf32⟩ := hm3 hm
              rw [hp5.2.1, hp5.2.2, hp4.2.1, hp4.2.2.1, hf32]
              exact ⟨le_of_eq (hp2.1.trans hp1.1), le_of_eq (hp2.2.1.trans hp1.2.1)⟩
            · dsimp only at hr
              cases hr
              refine ⟨Or.inl (hp5.1.trans (hp4.1 ▸ hd3)), fun hm => ?_⟩
              obtain ⟨-, hf32⟩ := hm3 hm
              rw [hp5.2.1, hp5.2.2, hp4.2.1, hp4.2.2.1, hf32]
              exact ⟨le_of_eq (hp2.1.trans hp1.1), le_of_eq (hp2.2.1.trans hp1.2.1)⟩
            · dsimp only at hr
              cases hr
              refine ⟨Or.inl (hp5.1.trans (hp4.1 ▸ hd3)), fun hm => ?_⟩
              obtain ⟨-, hf32⟩ := hm3 hm
              rw [hp5.2.1, hp5.2.2, hp4.2.1, hp4.2.2.1, hf32]
              exact ⟨le_of_eq (hp2.1.trans hp1.1), le_of_eq (hp2.2.1.trans hp1.2.1)⟩
            · dsimp only at hr
              cases hr
              refine ⟨Or.inl (hp5.1.trans (hp4.1 ▸ hd3)), fun hm => ?_⟩
              obtain ⟨-, hf32⟩ := hm3 hm
              rw [hp5.2.1, hp5.2.2, hp4.2.1, hp4.2.2.1, hf32]
              exact ⟨le_of_eq (hp2.1.trans hp1.1), le_of_eq (hp2.2.1.trans hp1.2.1)⟩
          · dsimp only at hr
            cases hr
            refine ⟨Or.inl (hp4.1 ▸ hd3), fun hm => ?_⟩
            obtain ⟨-, hf32⟩ := hm3 hm
            rw [hp4.2.1, hp4.2.2.1, hf32]
            exact ⟨le_of_eq (hp2.1.trans hp1.1), le_of_eq (hp2.2.1.trans hp1.2.1)⟩
          · dsimp only at hr
            cases hr
            refine ⟨Or.inl (hp4.1 ▸ hd3), fun hm => ?_⟩
            obtain ⟨-, hf32⟩ := hm3 hm
            rw [hp4.2.1, hp4.2.2.1, hf32]
            exact ⟨le_of_eq (hp2.1.trans hp1.1), le_of_eq (hp2.2.1.trans hp1.2.1)⟩
          · dsimp only at hr
            cases hr
            refine ⟨Or.inl (hp4.1 ▸ hd3), fun hm => ?_⟩
            obtain ⟨-, hf32⟩ := hm3 hm
            rw [hp4.2.1, hp4.2.2.1, hf32]
            exact ⟨le_of_eq (hp2.1.trans hp1.1), le_of_eq (hp2.2.1.trans hp1.2.1)⟩
          · dsimp only at hr
            cases hr
            refine ⟨Or.inl (hp4.1 ▸ hd3), fun hm => ?_⟩
            obtain ⟨-, hf32⟩ := hm3 hm
            rw [hp4.2.1, hp4.2.2.1, hf32]
            exact ⟨le_of_eq (hp2.1.trans hp1.1), le_of_eq (hp2.2.1.trans hp1.2.1)⟩
        · dsimp only at hr
          cases hr
          refine ⟨Or.inl hd3, fun hm => ?_⟩
          rw [(hm3 hm).2]
          exact ⟨le_of_eq (hp2.1.trans hp1.1), le_of_eq (hp2.2.1.trans hp1.2.1)⟩
        · dsimp only at hr
          cases hr
          refine ⟨Or.inl hd3, fun hm => ?_⟩
          rw [(hm3 hm).2]
          exact ⟨le_of_eq (hp2.1.trans hp1.1), le_of_eq (hp2.2.1.trans hp1.2.1)⟩
        · dsimp only at hr
          cases hr
          refine ⟨Or.inl hd3, fun hm => ?_⟩
          rw [(hm3 hm).2]
          exact ⟨le_of_eq (hp2.1.trans hp1.1), le_of_eq (hp2.2.1.trans hp1.2.1)⟩
        · dsimp only at hr
          cases hr
          refine ⟨Or.inl hd3, fun hm => ?_⟩
          rw [(hm3 hm).2]
          exact ⟨le_of_eq (hp2.1.trans hp1.1), le_of_eq (hp2.2.1.trans hp1.2.1)⟩
    · dsimp only at hr
      cases hr
      exact ⟨Or.inl rfl, fun _ =>
        ⟨le_of_eq (hp2.1.trans hp1.1), le_of_eq (hp2.2.1.trans hp1.2.1)⟩⟩
    · dsimp only at hr
      cases hr
      exact ⟨Or.inl rfl, fun _ =>
        ⟨le_of_eq (hp2.1.trans hp1.1), le_of_eq (hp2.2.1.trans hp1.2.1)⟩⟩
    · dsimp only at hr
      cases hr
      exact ⟨Or.inl rfl, fun _ =>
        ⟨le_of_eq (hp2.1.trans hp1.1), le_of_eq (hp2.2.1.trans hp1.2.1)⟩⟩
    · dsimp only at hr
      cases hr
      exact ⟨Or.inl rfl, fun _ =>
        ⟨le_of_eq (hp2.1.trans hp1.1), le_of_eq (hp2.2.1.trans hp1.2.1)⟩⟩
  · dsimp only at hr
    cases hr
    exact ⟨Or.inl rfl, fun _ => ⟨le_of_eq hp1.1, le_of_eq hp1.2.1⟩⟩
  · dsimp only at hr
    cases hr
    exact ⟨Or.inl rfl, fun _ => ⟨le_of_eq hp1.1, le_of_eq hp1.2.1⟩⟩
  · dsimp only at hr
    cases hr
    exact ⟨Or.inl rfl, fun _ => ⟨le_of_eq hp1.1, le_of_eq hp1.2.1⟩⟩
  · dsimp only at hr
    cases hr
    exact ⟨Or.inl rfl, fun _ => ⟨le_of_eq hp1.1, le_of_eq hp1.2.1⟩⟩

/-- Unfolding equation for `parseAppnLoop` at zero fuel. -/
theorem parseAppnLoop_zero (buf : List Nat) (e t : Nat) :
    parseAppnLoop buf e 0 t = if t < e then none else some t := rfl

/-- Unfolding equation for `parseAppnLoop` at successor fuel. -/
theorem parseAppnLoop_succ (buf : List Nat) (e n t : Nat) :
    parseAppnLoop buf e (n + 1) t =
      if t < e then
        if getByte buf t ≠ 0xFF ∨ getByte buf (t + 1) ≤ 0xE1 ∨
            getByte buf (t + 1) > 0xEF then none
        else parseAppnLoop buf e n (t + 2 + be16 buf (t + 2))
      else some t := rfl

/-- `parseAppnLoop` is fuel-insensitive once the fuel covers the
remaining distance to `expectedSize`: every iteration advances
`totalSize` by at least 2 while consuming one unit of fuel, so
`fuel = expectedSize` (the value `findAppSegmentsSize` passes) never
reaches the exhaustion branch. -/
theorem parseAppnLoop_fuel_enough (buf : List Nat) (e : Nat) :
    ∀ fuel t, e ≤ t + fuel →
      parseAppnLoop buf e fuel t = parseAppnLoop buf e (fuel + 1) t := by
  intro fuel
  induction fuel with
  | zero =>
      intro t h
      rw [parseAppnLoop_zero, parseAppnLoop_succ, if_neg (by omega),
        if_neg (by omega)]
  | succ n ih =>
      intro t h
      rw [parseAppnLoop_succ, parseAppnLoop_succ buf e (n + 1) t]
      by_cases hlt : t < e
      · rw [if_pos hlt, if_pos hlt]
        split_ifs with hm
        · rfl
        · exact ih (t + 2 + be16 buf (t + 2)) (by omega)
      · rw [if_neg hlt, if_neg hlt]

/-- C1: a present app-segment buffer whose trailing transport descriptor
does not validate (`findAppSegmentsSize` fails, in particular on a
trailer/total-length mismatch) makes `processAppSegment` fail with
`NO_INIT` and write nothing — the worker then marks the whole frame
failed, it does not set `exifError`.  The minimal-sample completion the
spec describes is the separate `exifError` path, entered only when the
flag was already set by an error notification: there `processAppSegment`
succeeds and writes the minimal segment assembled from an empty Exif
structure. -/
theorem claim_C1 (s : StreamState) (f : InputFrame) (env : ProcessEnv) :
    (∀ bs, f.exifError = false → f.appSegmentBuffer.data = some bs →
      findAppSegmentsSize bs
          (f.appSegmentBuffer.width * f.appSegmentBuffer.height) = none →
      processAppSegment s f env = (Status.noInit, s, f)) ∧
    (f.exifError = true → env.exifInitializeOk = true →
      env.exifSetFromMetadataOk = true → env.exifSetOrientationOk = true →
      env.exifGenerateApp1Ok = true → env.writeSampleOk = true →
      processAppSegment s f env = (Status.ok, s,
        { f with
            muxerSamples := f.muxerSamples ++
              [{ trackIndex := f.trackIndex
                 bytes := kExifApp1Marker env.exifApp1Bytes.length ++
                   env.exifApp1Bytes
                 timestamp := f.timestamp, flags := bufferFlagMuxerData }]
            appSegmentWritten := true })) := by
  constructor
  · intro bs hex hdata hfind
    unfold processAppSegment
    rw [hdata]
    dsimp only
    rw [hex]
    simp only [Bool.not_false, if_pos]
    rw [show (some bs : Option (List Nat)).getD [] = bs from rfl] at *
    rw [hfind]
  · intro hex h1 h2 h3 h4 h5
    unfold processAppSegment
    rw [hex]
    simp only [Bool.not_true, Bool.false_eq_true, if_false]
    rw [h1, h2, h3, h4, h5]
    simp

/-- C1 witness: both conjuncts exercised on the concrete inputs. -/
theorem claim_C1_witness :
    processAppSegment {} frameC1 (nominalEnv 0) =
      (Status.noInit, {}, frameC1) ∧
    processAppSegment {} frameC1x (nominalEnv 0) = (Status.ok, {},
      { frameC1x with
          muxerSamples := frameC1x.muxerSamples ++
            [{ trackIndex := frameC1x.trackIndex
               bytes := kExifApp1Marker (nominalEnv 0).exifApp1Bytes.length ++
                 (nominalEnv 0).exifApp1Bytes
               timestamp := frameC1x.timestamp
               flags := bufferFlagMuxerData }]
          appSegmentWritten := true }) :=
  ⟨(claim_C1 {} frameC1 (nominalEnv 0)).1 cxBufC1 rfl rfl (by decide),
   (claim_C1 {} frameC1x (nominalEnv 0)).2 rfl rfl rfl rfl rfl rfl⟩

/-- C1 counterexample: on the concrete trailer-mismatch buffer the
segment stage fails with `NO_INIT` and the frame's `exifError` flag is
not set; one worker pass then evicts the frame as a full error (failure
notification emitted, nothing delivered), contradicting the claimed
exifError-only handling and normal completion. -/
theorem claim_C1_cx :
    processAppSegment stateC1 frameC1 (nominalEnv 0) =
      (Status.noInit, stateC1, frameC1) ∧
    frameC1.exifError = false ∧
    (threadLoopIteration stateC1 (nominalEnv 0)).notifications =
      [(1, 42)] ∧
    (threadLoopIteration stateC1 (nominalEnv 0)).delivered = [] ∧
    (threadLoopIteration stateC1 (nominalEnv 0)).pendingInputFrames = [] := by
  decide

/-- C2: the forward (necessity) direction — when a `processInputFrame`
pass delivers the finished container, the delivered log grew by exactly
this frame number, the pass returned OK, and on its final frame state
both tile counters are zero and the app segment is written.  (The
converse additionally requires the finalization's external steps to
succeed and the container to fit the capacity budget; see the
counterexample.) -/
theorem claim_C2 (s : StreamState) (fn : Int) (f : InputFrame)
    (env : ProcessEnv) (r : Status × StreamState × InputFrame)
    (hr : processInputFrame s fn f env = r)
    (hne : r.2.1.delivered ≠ s.delivered) :
    r.2.1.delivered = s.delivered ++ [fn] ∧ r.1 = Status.ok ∧
    r.2.2.pendingOutputTiles = 0 ∧ r.2.2.gainmapPendingOutputTiles = 0 ∧
    r.2.2.appSegmentWritten = true := by
  rcases (processInputFrame_effects s fn f env r hr).1 with h | h
  · exact absurd h hne
  · exact h

/-- C2 witness: a concrete pass that drains the last tile and delivers. -/
theorem claim_C2_witness :
    (processInputFrame sC2w 1 fC2w (nominalEnv 10)).2.1.delivered =
      sC2w.delivered ++ [1] ∧
    (processInputFrame sC2w 1 fC2w (nominalEnv 10)).1 = Status.ok ∧
    (processInputFrame sC2w 1 fC2w (nominalEnv 10)).2.2.pendingOutputTiles
      = 0 ∧
    (processInputFrame sC2w 1 fC2w
      (nominalEnv 10)).2.2.gainmapPendingOutputTiles = 0 ∧
    (processInputFrame sC2w 1 fC2w (nominalEnv 10)).2.2.appSegmentWritten
      = true :=
  claim_C2 sC2w 1 fC2w (nominalEnv 10) _ rfl (by decide)

/-- C2 counterexample: the same frame under a 100-byte capacity budget
and a 200-byte finished container (`200 > 100 - sizeof(CameraBlob)`, a
comparison on which the model and the source's `size_t` arithmetic
agree, the budget being at least the 8-byte trailer) ends the pass with
both counters at zero and the app segment written, yet nothing is
delivered and the pass fails with `BAD_VALUE` — refuting the claimed
"if" direction of the iff. -/
theorem claim_C2_cx :
    (processInputFrame sC2cx 1 fC2w (nominalEnv 200)).2.2.pendingOutputTiles
      = 0 ∧
    (processInputFrame sC2cx 1 fC2w
      (nominalEnv 200)).2.2.gainmapPendingOutputTiles = 0 ∧
    (processInputFrame sC2cx 1 fC2w (nominalEnv 200)).2.2.appSegmentWritten
      = true ∧
    (processInputFrame sC2cx 1 fC2w (nominalEnv 200)).2.1.delivered = [] ∧
    (processInputFrame sC2cx 1 fC2w (nominalEnv 200)).1 = Status.badValue := by
  decide

/-- C4: once a frame's muxer is open — i.e. after `startMuxerForInputFrame`
has armed `pendingOutputTiles`/`gainmapPendingOutputTiles` from the grid
totals — no `processInputFrame` pass ever increases either counter.
(The arming step itself raises them from 0, see the counterexample.) -/
theorem claim_C4 (s : StreamState) (fn : Int) (f : InputFrame)
    (env : ProcessEnv) (r : Status × StreamState × InputFrame)
    (hr : processInputFrame s fn f env = r) (hm : f.muxer = true) :
    r.2.2.pendingOutputTiles ≤ f.pendingOutputTiles ∧
    r.2.2.gainmapPendingOutputTiles ≤ f.gainmapPendingOutputTiles :=
  (processInputFrame_effects s fn f env r hr).2 hm

/-- C4 witness: the delivering pass drops the pending-tile counter from
one to zero. -/
theorem claim_C4_witness :
    (processInputFrame sC2w 2 fC2w (nominalEnv 10)).2.2.pendingOutputTiles
      ≤ fC2w.pendingOutputTiles ∧
    (processInputFrame sC2w 2 fC2w
      (nominalEnv 10)).2.2.gainmapPendingOutputTiles ≤
      fC2w.gainmapPendingOutputTiles :=
  claim_C4 sC2w 2 fC2w (nominalEnv 10) _ rfl rfl

/-- C4 counterexample: `startMuxerForInputFrame` raises
`pendingOutputTiles` from 0 to `mNumOutputTiles` when it arms the muxer,
so the counters do not monotonically decrease over the whole lifetime. -/
theorem claim_C4_cx :
    ({} : InputFrame).pendingOutputTiles = 0 ∧
    (startMuxerForInputFrame { numOutputTiles := 4 } {}
      (nominalEnv 0)).2.2.pendingOutputTiles = 4 := by
  decide


/-- C3: within one `processInputFrame` pass, a frame's container muxer
is opened (its `muxer` flag turns true) only when at least one
compressed encoder output was already attributed to the frame on entry
and the output-slot test passed; in particular arrival of the app
segment alone never opens a container, because `appSegmentReady`
requires the muxer to exist already.  (The settings half of the original
claim fails: a late codec output can resurrect an erased frame and open
a muxer for it with no settings recorded — see the counterexample.) -/
theorem claim_C3 (s : StreamState) (fn : Int) (f : InputFrame)
    (env : ProcessEnv) (r : Status × StreamState × InputFrame)
    (hr : processInputFrame s fn f env = r)
    (hm : f.muxer = false) (hm' : r.2.2.muxer = true) :
    codecOutputReadyOf f = true ∧
    hasOutputBufferOf s.dequeuedOutputBufferCnt f = true := by
  have haseg : appSegmentReadyOf f = false := by
    simp [appSegmentReadyOf, hm]
  unfold processInputFrame at hr
  dsimp only at hr
  rcases hS1 : (if codecInputReadyOf f = true then
      if (s.hdrGainmapEnabled && !f.baseBuffer) = true then
        match generateBaseImageAndGainmap f env with
        | (Status.ok, f) => processCodecInputFrame s f env
        | r => r
      else processCodecInputFrame s f env
    else (Status.ok, f)) with ⟨st1, f1⟩
  rw [hS1] at hr
  have hp1 : f1.muxer = f.muxer := by
    split_ifs at hS1
    · cases hgen : generateBaseImageAndGainmap f env with
      | mk stg fg =>
          have hg := generateBaseImageAndGainmap_preserves f env
          rw [hgen] at hS1 hg
          cases stg
          · have hp := processCodecInputFrame_preserves s fg env
            rw [show (match ((Status.ok, fg) : Status × InputFrame) with
              | (Status.ok, f) => processCodecInputFrame s f env
              | r => r) = processCodecInputFrame s fg env from rfl] at hS1
            rw [hS1] at hp
            simp at hp hg
            exact hp.2.2.1.trans hg.2.2.1
          all_goals
            simp at hS1 hg
            rw [← hS1.2]
            exact hg.2.2.1
    · have hp := processCodecInputFrame_preserves s f env
      rw [hS1] at hp
      simp at hp
      exact hp.2.2.1
    · cases hS1
      rfl
  cases st1
  · dsimp only at hr
    rcases hS2 : (if gainmapCodecInputReadyOf f = true then
        processCodecGainmapInputFrame s f1 env
      else (Status.ok, f1)) with ⟨st2, f2⟩
    rw [hS2] at hr
    have hp2 : f2.muxer = f1.muxer := by
      split_ifs at hS2
      · have hp := processCodecGainmapInputFrame_preserves s f1 env
        rw [hS2] at hp
        simp at hp
        exact hp.2.2.1
      · cases hS2
        rfl
    cases st2
    · dsimp only at hr
      by_cases hgate : (!(codecOutputReadyOf f &&
          hasOutputBufferOf s.dequeuedOutputBufferCnt f) &&
          !appSegmentReadyOf f) = true
      · rw [if_pos hgate] at hr
        cases hr
        rw [hp2, hp1, hm] at hm'
        simp at hm'
      · cases hab : (codecOutputReadyOf f &&
            hasOutputBufferOf s.dequeuedOutputBufferCnt f)
        · exact absurd (by simp [hab, haseg]) hgate
        · simp only [Bool.and_eq_true] at hab
          exact hab
    · dsimp only at hr
      cases hr
      rw [hp2, hp1, hm] at hm'
      simp at hm'
    · dsimp only at hr
      cases hr
      rw [hp2, hp1, hm] at hm'
      simp at hm'
    · dsimp only at hr
      cases hr
      rw [hp2, hp1, hm] at hm'
      simp at hm'
    · dsimp only at hr
      cases hr
      rw [hp2, hp1, hm] at hm'
      simp at hm'
  · dsimp only at hr
    cases hr
    rw [hp1, hm] at hm'
    simp at hm'
  · dsimp only at hr
    cases hr
    rw [hp1, hm] at hm'
    simp at hm'
  · dsimp only at hr
    cases hr
    rw [hp1, hm] at hm'
    simp at hm'
  · dsimp only at hr
    cases hr
    rw [hp1, hm] at hm'
    simp at hm'

/-- C3 witness: a concrete pass that opens the muxer for a frame holding
one attributed compressed output. -/
theorem claim_C3_witness :
    codecOutputReadyOf fC3w = true ∧
    hasOutputBufferOf ({} : StreamState).dequeuedOutputBufferCnt fC3w
      = true :=
  claim_C3 { maxHeicBufferSize := 1000000 } 1 fC3w (nominalEnv 0) _ rfl rfl
    (by decide)

/-- C3 counterexample: in the resurrection trace the frame map is empty
after the request error is processed, yet the late codec output
re-creates frame 1 and the final worker pass opens a muxer for it while
its settings fields still hold the constructor defaults (timestamp -1,
requestId -1) — a container created without the frame's
settings/shutter ever being recorded. -/
theorem claim_C3_cx :
    (run s0C3 (traceC3.take 9)).pendingInputFrames = [] ∧
    ((mapFind? (run s0C3 traceC3).pendingInputFrames 1).getD
        default).muxer = true ∧
    ((mapFind? (run s0C3 traceC3).pendingInputFrames 1).getD
        default).timestamp = -1 ∧
    ((mapFind? (run s0C3 traceC3).pendingInputFrames 1).getD
        default).requestId = -1 := by
  decide

set_option maxHeartbeats 4000000 in
/-- After one `releaseInputFrameLocked`, the frame holds no buffer, no
queued codec output, no input tiles, no open fd and no dequeued output
buffer; the error/requestId fields and the stream error state are
untouched. -/
theorem releaseInputFrameLocked_post (s : StreamState) (fn : Int)
    (f : InputFrame) :
    (releaseInputFrameLocked s fn f).2.appSegmentBuffer.data = none ∧
    (releaseInputFrameLocked s fn f).2.codecOutputBuffers = [] ∧
    (releaseInputFrameLocked s fn f).2.gainmapCodecOutputBuffers = [] ∧
    (releaseInputFrameLocked s fn f).2.yuvBuffer.data = none ∧
    (releaseInputFrameLocked s fn f).2.codecInputBuffers = [] ∧
    (releaseInputFrameLocked s fn f).2.gainmapCodecInputBuffers = [] ∧
    (releaseInputFrameLocked s fn f).2.fileFd < 0 ∧
    (releaseInputFrameLocked s fn f).2.anb = false ∧
    (releaseInputFrameLocked s fn f).2.error = f.error ∧
    (releaseInputFrameLocked s fn f).2.requestId = f.requestId ∧
    (releaseInputFrameLocked s fn f).1.errorState = s.errorState := by
  rcases hq : releaseInputFrameLocked s fn f with ⟨s1, f1⟩
  unfold releaseInputFrameLocked at hq
  dsimp only
  rcases Option.eq_none_or_eq_some f.appSegmentBuffer.data with hA | ⟨a, hA⟩ <;>
  rcases Option.eq_none_or_eq_some f.yuvBuffer.data with hY | ⟨b, hY⟩ <;>
  rcases Bool.eq_false_or_eq_true f.anb with hB | hB <;>
  rcases Bool.eq_false_or_eq_true (f.error || s.errorState) with hE | hE <;>
  by_cases hF : f.fileFd ≥ 0 <;>
  simp [hA, hY, hB, hE, hF] at hq <;>
  obtain ⟨h1, h2⟩ := hq <;>
  subst h1 <;>
  subst h2 <;>
  simp [hA, hY, hB, hE, hF] <;>
  omega

set_option maxHeartbeats 4000000 in
/-- On a frame already in the released shape, `releaseInputFrameLocked`
only re-emits the failure notification (for an error frame or an
errored stream) and changes nothing else. -/
theorem releaseInputFrameLocked_released (s : StreamState) (fn : Int)
    (f : InputFrame)
    (h1 : f.appSegmentBuffer.data = none) (h2 : f.codecOutputBuffers = [])
    (h3 : f.gainmapCodecOutputBuffers = []) (h4 : f.yuvBuffer.data = none)
    (h5 : f.codecInputBuffers = []) (h6 : f.gainmapCodecInputBuffers = [])
    (h7 : f.fileFd < 0) (h8 : f.anb = false) :
    releaseInputFrameLocked s fn f =
      (if f.error || s.errorState then
        { s with notifications := s.notifications ++ [(fn, f.requestId)] }
      else s, f) := by
  obtain ⟨o, q, ⟨ad, aw, ah, ats⟩, cob, gcob, res, ⟨yd, yw, yh, yts⟩, cib,
    gcib, err, exif, ts, rid, fmt, gfmt, mux, fefd, ffd, ti, gti, anb, asw,
    pot, gpot, cic, gcic, bb, bi, gi, igm, ms⟩ := f
  dsimp only at h1 h2 h3 h4 h5 h6 h7 h8 ⊢
  subst h1 h2 h3 h4 h5 h6 h8
  unfold releaseInputFrameLocked
  simp [show ¬ ffd ≥ 0 by omega]

/-- C7: releasing the same frame a second time never repeats a buffer
release (no app-segment or main-image buffer is unlocked again, no
codec output is returned again), never decrements the dequeued-output
count again, and never closes the temporary file descriptor again; for
a non-error frame in a non-error stream the second call is the
identity.  The exception that corrects the original claim is the last
conjunct: for a frame whose error flag is set, the second release emits
the per-frame failure notification again (the source's `notifyError`
call at lines 1740-1743 is guarded only by the error flags, not by
whether the frame was already released). -/
theorem claim_C7 (s : StreamState) (fn : Int) (f : InputFrame) :
    (releaseInputFrameLocked (releaseInputFrameLocked s fn f).1 fn
        (releaseInputFrameLocked s fn f).2).2 =
      (releaseInputFrameLocked s fn f).2 ∧
    (releaseInputFrameLocked (releaseInputFrameLocked s fn f).1 fn
        (releaseInputFrameLocked s fn f).2).1.unlockedAppSegmentBuffers =
      (releaseInputFrameLocked s fn f).1.unlockedAppSegmentBuffers ∧
    (releaseInputFrameLocked (releaseInputFrameLocked s fn f).1 fn
        (releaseInputFrameLocked s fn f).2).1.releasedCodecOutputIndices =
      (releaseInputFrameLocked s fn f).1.releasedCodecOutputIndices ∧
    (releaseInputFrameLocked (releaseInputFrameLocked s fn f).1 fn
        (releaseInputFrameLocked s fn
          f).2).1.releasedGainmapCodecOutputIndices =
      (releaseInputFrameLocked s fn f).1.releasedGainmapCodecOutputIndices ∧
    (releaseInputFrameLocked (releaseInputFrameLocked s fn f).1 fn
        (releaseInputFrameLocked s fn f).2).1.unlockedMainImageBuffers =
      (releaseInputFrameLocked s fn f).1.unlockedMainImageBuffers ∧
    (releaseInputFrameLocked (releaseInputFrameLocked s fn f).1 fn
        (releaseInputFrameLocked s fn f).2).1.closedFds =
      (releaseInputFrameLocked s fn f).1.closedFds ∧
    (releaseInputFrameLocked (releaseInputFrameLocked s fn f).1 fn
        (releaseInputFrameLocked s fn f).2).1.canceledOutputBuffers =
      (releaseInputFrameLocked s fn f).1.canceledOutputBuffers ∧
    (releaseInputFrameLocked (releaseInputFrameLocked s fn f).1 fn
        (releaseInputFrameLocked s fn f).2).1.dequeuedOutputBufferCnt =
      (releaseInputFrameLocked s fn f).1.dequeuedOutputBufferCnt ∧
    (f.error = false → s.errorState = false →
      releaseInputFrameLocked (releaseInputFrameLocked s fn f).1 fn
        (releaseInputFrameLocked s fn f).2 =
      releaseInputFrameLocked s fn f) ∧
    (f.error = true →
      (releaseInputFrameLocked (releaseInputFrameLocked s fn f).1 fn
          (releaseInputFrameLocked s fn f).2).1.notifications =
        (releaseInputFrameLocked s fn f).1.notifications ++
          [(fn, f.requestId)]) := by
  have hpost := releaseInputFrameLocked_post s fn f
  rcases hq : releaseInputFrameLocked s fn f with ⟨s1, f1⟩
  rw [hq] at hpost
  dsimp only at hpost
  obtain ⟨k1, k2, k3, k4, k5, k6, k7, k8, k9, k10, k11⟩ := hpost
  have hrel := releaseInputFrameLocked_released s1 fn f1 k1 k2 k3 k4 k5 k6 k7 k8
  dsimp only
  rw [hrel]
  refine ⟨rfl, ?_, ?_, ?_, ?_, ?_, ?_, ?_, ?_, ?_⟩
  · split <;> rfl
  · split <;> rfl
  · split <;> rfl
  · split <;> rfl
  · split <;> rfl
  · split <;> rfl
  · split <;> rfl
  · intro he hse
    rw [if_neg (by rw [k9, k11, he, hse]; simp)]
  · intro he
    rw [if_pos (by rw [k9, he]; simp)]
    dsimp only
    rw [k10]

/-- C7 witness: the identity of the second release on a concrete
default frame, and the duplicated notification on a concrete error
frame. -/
theorem claim_C7_witness :
    (releaseInputFrameLocked (releaseInputFrameLocked {} 1 {}).1 1
        (releaseInputFrameLocked {} 1 {}).2 =
      releaseInputFrameLocked {} 1 {}) ∧
    (releaseInputFrameLocked (releaseInputFrameLocked {} 1 fC7).1 1
        (releaseInputFrameLocked {} 1 fC7).2).1.notifications =
      (releaseInputFrameLocked {} 1 fC7).1.notifications ++ [(1, 7)] :=
  ⟨(claim_C7 {} 1 {}).2.2.2.2.2.2.2.2.1 rfl rfl,
   (claim_C7 {} 1 fC7).2.2.2.2.2.2.2.2.2 rfl⟩

/-- C7 counterexample: for a frame flagged failed, each release emits
the per-frame failure notification again, so the second release is not
side-effect free. -/
theorem claim_C7_cx :
    (releaseInputFrameLocked (releaseInputFrameLocked {} 1 fC7).1 1
        (releaseInputFrameLocked {} 1 fC7).2).1.notifications =
      [(1, 7), (1, 7)] := by
  decide


/-- The scan of `getNextReadyInputLocked` returns the first ready entry
of a key-sorted list: the entry is in the list, it is ready, and every
entry with a smaller key is not ready. -/
theorem getNextReady_go_spec (s : StreamState) :
    ∀ l : List (Int × InputFrame),
      List.Pairwise (fun a b : Int × InputFrame => a.1 < b.1) l →
      ∀ k f, getNextReadyInputLocked.go s l = some (k, f) →
      (k, f) ∈ l ∧ frameReady s.dequeuedOutputBufferCnt f = true ∧
      ∀ k' f', (k', f') ∈ l → k' < k →
        frameReady s.dequeuedOutputBufferCnt f' = false := by
  intro l
  induction l with
  | nil =>
      intro _ k f h
      simp [getNextReadyInputLocked.go] at h
  | cons hd tl ih =>
      obtain ⟨k0, f0⟩ := hd
      intro hp k f h
      rw [show getNextReadyInputLocked.go s ((k0, f0) :: tl) =
          (if frameReady s.dequeuedOutputBufferCnt f0 then some (k0, f0)
           else getNextReadyInputLocked.go s tl) from rfl] at h
      by_cases hready : frameReady s.dequeuedOutputBufferCnt f0 = true
      · rw [if_pos hready] at h
        obtain ⟨hk, hf⟩ : k0 = k ∧ f0 = f := by
          have := Option.some.inj h
          exact ⟨congrArg Prod.fst this, congrArg Prod.snd this⟩
        subst hk hf
        refine ⟨List.mem_cons_self _ _, hready, ?_⟩
        intro k' f' hmem hlt
        rcases List.mem_cons.mp hmem with hh | ht
        · exact absurd hlt (by rw [(Prod.mk.injEq _ _ _ _).mp hh |>.1]; omega)
        · have := (List.pairwise_cons.mp hp).1 (k', f') ht
          dsimp at this
          omega
      · rw [if_neg hready] at h
        have hrec := ih (List.pairwise_cons.mp hp).2 k f h
        refine ⟨List.mem_cons_of_mem _ hrec.1, hrec.2.1, ?_⟩
        intro k' f' hmem hlt
        rcases List.mem_cons.mp hmem with hh | ht
        · have hf0 : f' = f0 := congrArg Prod.snd hh
          rw [hf0]
          exact Eq.mp (Bool.not_eq_true _) hready
        · exact hrec.2.2 k' f' ht hlt

/-- C5: the verified half of the ordering claim — over a key-sorted
frame map, `getNextReadyInputLocked` selects the smallest pending frame
number for which forward progress is currently possible: the selected
frame is pending and ready, and every pending frame with a smaller
number is not ready (its scan runs in ascending key order and stops at
the first ready, non-error frame).  The extrapolated global property —
completions emitted in ascending frame-number order under arbitrary
interleavings — fails, because the FIFO attribution queues follow
per-stream arrival order: see the counterexample trace delivering frame
2 before frame 1. -/
theorem claim_C5 (s : StreamState) (k : Int)
    (hsorted : mapSorted s.pendingInputFrames)
    (h : (getNextReadyInputLocked s).1 = some k) :
    ∃ f, (k, f) ∈ s.pendingInputFrames ∧
      frameReady s.dequeuedOutputBufferCnt f = true ∧
      ∀ k' f', (k', f') ∈ s.pendingInputFrames → k' < k →
        frameReady s.dequeuedOutputBufferCnt f' = false := by
  letI : IsTrans (Int × InputFrame) (fun a b : Int × InputFrame => a.1 < b.1) :=
    ⟨fun a b c h1 h2 => lt_trans h1 h2⟩
  have hpw := List.chain'_iff_pairwise.mp hsorted
  rcases hgo : getNextReadyInputLocked.go s s.pendingInputFrames with _ | ⟨k0, f0⟩
  · unfold getNextReadyInputLocked at h
    rw [hgo] at h
    simp at h
  · unfold getNextReadyInputLocked at h
    rw [hgo] at h
    dsimp only at h
    have hk : k0 = k := Option.some.inj h
    subst hk
    have hspec := getNextReady_go_spec s s.pendingInputFrames hpw k0 f0 hgo
    exact ⟨f0, hspec.1, hspec.2.1, hspec.2.2⟩

/-- C5 witness: with frames 1 (idle) and 2 (holding a compressed
output) pending, the scan selects frame 2 and frame 1 is indeed not
ready. -/
theorem claim_C5_witness :
    ∃ f, (2, f) ∈ sC5w.pendingInputFrames ∧
      frameReady sC5w.dequeuedOutputBufferCnt f = true ∧
      ∀ k' f', (k', f') ∈ sC5w.pendingInputFrames → k' < 2 →
        frameReady sC5w.dequeuedOutputBufferCnt f' = false :=
  claim_C5 sC5w 2 (List.Chain.cons (by decide) List.Chain.nil) (by decide)

/-- C5 counterexample: when frame 2's sub-events all precede frame 1's,
the pipeline delivers frame 2 first — completions follow per-stream
arrival order, not ascending frame-number order. -/
theorem claim_C5_cx : (run s0C5 traceC5).delivered = [2, 1] := by
  decide

end HeicStream
